import Mathlib

/-
  Verification development for the claudex repository.

  Shallow embedding of the Python scripts the claims concern:
  * skills/cc-insights/scripts/conversation-processor.py  (ConversationProcessor)
  * skills/cc-insights/scripts/search-conversations.py    (ConversationSearch)
  * plugins/claude-code-tools/skills/cc-insights/scripts/rag_indexer.py (RAGIndexer)
  * scripts/validate-marketplace.py                       (MarketplaceValidator)
  * archive/skills/codebase-auditor/scripts/analyzers/technical_debt.py
  * archive/skills/codebase-auditor/scripts/remediation_planner.py

  Conventions: Python numbers that stay integral are Int or Nat; numbers that
  mix with 0.5 or come from division are Rat (the float rounding of CPython is
  abstracted to exact rational arithmetic).  Python exceptions are the error
  side of Except.  Python strings are Lean String, compared characterwise.
-/

/-- Python exception kinds that the modelled code can raise. -/
inductive PyErr
  | keyError
  | typeError
  | fileNotFound
  | unicodeDecodeError
  | attributeError
  deriving DecidableEq, Repr

instance {ε α : Type} [DecidableEq ε] [DecidableEq α] : DecidableEq (Except ε α) := fun x y =>
  match x, y with
  | .ok a, .ok b =>
    if h : a = b then isTrue (by rw [h]) else isFalse (by intro hc; cases hc; exact h rfl)
  | .error a, .error b =>
    if h : a = b then isTrue (by rw [h]) else isFalse (by intro hc; cases hc; exact h rfl)
  | .ok _, .error _ => isFalse (by intro hc; cases hc)
  | .error _, .ok _ => isFalse (by intro hc; cases hc)

/-- Does the character list start with the given pattern (chars compared with ==)? -/
def startsWithChars : List Char → List Char → Bool
  | [], _ => true
  | _ :: _, [] => false
  | a :: as, b :: bs => a == b && startsWithChars as bs

/-- Does the first character list occur contiguously inside the second?
Models the Python substring test `needle in hay`. -/
def containsChars (needle : List Char) : List Char → Bool
  | [] => needle.isEmpty
  | c :: cs => startsWithChars needle (c :: cs) || containsChars needle cs

/-- Python substring containment `needle in hay` on strings. -/
def strIn (needle hay : String) : Bool := containsChars needle.toList hay.toList

/-- Python lexicographic comparison of strings, characterwise. -/
def charListLt : List Char → List Char → Bool
  | [], [] => false
  | [], _ :: _ => true
  | _ :: _, [] => false
  | a :: as, b :: bs => if a < b then true else if b < a then false else charListLt as bs

/-- Python `a < b` on strings. -/
def pyStrLt (a b : String) : Bool := charListLt a.toList b.toList

/-- Python `a <= b` on strings. -/
def pyStrLe (a b : String) : Bool := pyStrLt a b || a == b

theorem charListLt_asymm_total :
    ∀ as bs, charListLt as bs = false → charListLt bs as = true ∨ as = bs := by
  intro as
  induction as with
  | nil =>
    intro bs h
    cases bs with
    | nil => exact Or.inr rfl
    | cons b bs => simp [charListLt] at h
  | cons a as ih =>
    intro bs h
    cases bs with
    | nil => simp [charListLt]
    | cons b bs =>
      simp only [charListLt] at h ⊢
      by_cases hab : a < b
      · simp [hab] at h
      · by_cases hba : b < a
        · simp [hab, hba] at h ⊢
        · simp [hab, hba] at h ⊢
          have hEq : a = b := le_antisymm (not_lt.mp hba) (not_lt.mp hab)
          rcases ih bs h with h2 | h2
          · exact Or.inl h2
          · exact Or.inr ⟨hEq, h2⟩

theorem pyStrLe_of_not_lt {a b : String} (h : pyStrLt a b = false) : pyStrLe b a = true := by
  unfold pyStrLt at h
  rcases charListLt_asymm_total _ _ h with h2 | h2
  · unfold pyStrLe pyStrLt
    simp [String.toList] at h2 ⊢
    simp [h2]
  · have : b = a := by
      apply String.ext
      simpa [String.toList] using h2.symm
    subst this
    unfold pyStrLe
    simp

section Auditor

/-!
## Codebase auditor: findings, SQALE rating, remediation planner

A Python finding is a dict; the claims read its `severity`, `category` and
`effort` keys, each possibly absent, so a finding is modelled by those three
optional string fields (the remaining keys — title, file, description,
impact, remediation, subcategory — only feed the rendered markdown text).
-/

/-- A finding dictionary, restricted to the keys the scoring code reads. -/
structure Finding where
  severity : Option String
  category : Option String
  effort : Option String
  deriving DecidableEq, Repr

namespace TechnicalDebt

/-- technical_debt.py lines 44-53: `severity_hours` dict lookup with default 0.5,
applied to `finding.get('severity', 'low')`. -/
def severity_hours (s : String) : ℚ :=
  if s = "critical" then 8
  else if s = "high" then 4
  else if s = "medium" then 2
  else if s = "low" then 0.5
  else 0.5

/-- technical_debt.py lines 50-53: total remediation hours of a findings list. -/
def total_remediation_hours (all_findings : List Finding) : ℚ :=
  (all_findings.map (fun f => severity_hours (f.severity.getD "low"))).sum

/-- technical_debt.py lines 55-63: `development_hours = total_loc / 50` and the
debt ratio, 0 when development_hours is 0, else remediation/development * 100. -/
def debt_ratio_val (all_findings : List Finding) (total_loc : ℕ) : ℚ :=
  if ((total_loc : ℚ) / 50) = 0 then 0
  else total_remediation_hours all_findings / ((total_loc : ℚ) / 50) * 100

/-- technical_debt.py lines 33-76: `calculate_sqale_rating`. -/
def calculate_sqale_rating (all_findings : List Finding) (total_loc : ℕ) : String :=
  if debt_ratio_val all_findings total_loc ≤ 5 then "A"
  else if debt_ratio_val all_findings total_loc ≤ 10 then "B"
  else if debt_ratio_val all_findings total_loc ≤ 20 then "C"
  else if debt_ratio_val all_findings total_loc ≤ 50 then "D"
  else "E"

end TechnicalDebt

namespace RemediationPlanner

/-- remediation_planner.py lines 169-175: `severity_impact` dict lookup, default 1. -/
def severity_impact (s : String) : ℤ :=
  if s = "critical" then 10
  else if s = "high" then 7
  else if s = "medium" then 4
  else if s = "low" then 2
  else 1

/-- remediation_planner.py line 175: impact of a finding,
`severity_impact.get(finding.get('severity', 'low'), 1)`. -/
def impact_of (finding : Finding) : ℤ := severity_impact (finding.severity.getD "low")

/-- remediation_planner.py lines 177-185: frequency from
`category = finding.get('category', '')`. -/
def frequency_of (finding : Finding) : ℤ :=
  if finding.category.getD "" = "security" ∨ finding.category.getD "" = "testing" then 10
  else if finding.category.getD "" = "quality" ∨ finding.category.getD "" = "performance" then 6
  else 3

/-- remediation_planner.py lines 187-192: `effort_values` dict lookup, default 5. -/
def effort_values (e : String) : ℤ :=
  if e = "low" then 2
  else if e = "medium" then 5
  else if e = "high" then 8
  else 5

/-- remediation_planner.py line 193: effort of a finding,
`effort_values.get(finding.get('effort', 'medium'), 5)`. -/
def effort_of (finding : Finding) : ℤ := effort_values (finding.effort.getD "medium")

/-- remediation_planner.py lines 156-198: `calculate_priority_score`. -/
def calculate_priority_score (finding : Finding) : ℤ :=
  max 0 (impact_of finding * 10 + frequency_of finding * 5 - effort_of finding * 2)

/-- remediation_planner.py lines 33-37: flatten the per-category findings dict,
setting each finding's `category` key to the dict key it came from. -/
def flattenWithCategory (findings : List (String × List Finding)) : List Finding :=
  (findings.map (fun p => p.2.map (fun f => { f with category := some p.1 }))).flatten

/-- remediation_planner.py lines 39-43: compute priority scores and sort all
findings by score, highest first (`sort(key=..., reverse=True)`).  CPython's
stable sort is modelled by insertion sort on the non-strict descending-score
relation; the relative order of equal-score findings is not modelled. -/
def sortByPriority (l : List Finding) : List Finding :=
  l.insertionSort (fun a b => calculate_priority_score b ≤ calculate_priority_score a)

/-- Python subscript `finding['severity']`: KeyError when the key is absent. -/
def getSeverity (f : Finding) : Except PyErr String :=
  match f.severity with
  | some s => .ok s
  | none => .error .keyError

/-- remediation_planner.py lines 47-50: the list comprehension
`[f for f in all_findings if f['severity'] == sev]`, which raises KeyError
when a finding lacks the severity key. -/
def filterBySeverity (sev : String) : List Finding → Except PyErr (List Finding)
  | [] => .ok []
  | f :: rest =>
    match getSeverity f with
    | .error e => .error e
    | .ok s =>
      match filterBySeverity sev rest with
      | .error e => .error e
      | .ok tail => .ok (if s = sev then f :: tail else tail)

/-- remediation_planner.py lines 33-50: the bucket-construction core of
`generate_remediation_plan` (the rest of that function renders markdown from
these four lists, in list order). -/
def remediationBuckets (findings : List (String × List Finding)) :
    Except PyErr (List Finding × List Finding × List Finding × List Finding) :=
  let all_findings := sortByPriority (flattenWithCategory findings)
  match filterBySeverity "critical" all_findings with
  | .error e => .error e
  | .ok p0 =>
    match filterBySeverity "high" all_findings with
    | .error e => .error e
    | .ok p1 =>
      match filterBySeverity "medium" all_findings with
      | .error e => .error e
      | .ok p2 =>
        match filterBySeverity "low" all_findings with
        | .error e => .error e
        | .ok p3 => .ok (p0, p1, p2, p3)

end RemediationPlanner

end Auditor

namespace AuditorClaims

open TechnicalDebt RemediationPlanner

/-- Remediation hours per finding as the claim words them:
critical 8, high 4, medium 2, low or unrecognized (or absent) 0.5. -/
def claimHours (f : Finding) : ℚ :=
  if f.severity = some "critical" then 8
  else if f.severity = some "high" then 4
  else if f.severity = some "medium" then 2
  else 0.5

/-- The debt ratio as the claim words it: 100 * H / (total_loc / 50), taken to
be 0 when total_loc is 0, with H the sum of per-finding remediation hours. -/
def claimDebtRatio (all_findings : List Finding) (total_loc : ℕ) : ℚ :=
  if total_loc = 0 then 0
  else 100 * (all_findings.map claimHours).sum / ((total_loc : ℚ) / 50)

theorem severity_hours_eq_claimHours (f : Finding) :
    severity_hours (f.severity.getD "low") = claimHours f := by
  unfold severity_hours claimHours
  cases hs : f.severity with
  | none => simp
  | some s => simp only [Option.getD]; split_ifs with h1 h2 h3 h4 <;> simp_all

theorem ratio_eq_claimRatio (all_findings : List Finding) (total_loc : ℕ) :
    debt_ratio_val all_findings total_loc = claimDebtRatio all_findings total_loc := by
  unfold debt_ratio_val
  have hsum : total_remediation_hours all_findings = (all_findings.map claimHours).sum := by
    unfold total_remediation_hours
    congr 1
    apply List.map_congr_left
    intro f _
    exact severity_hours_eq_claimHours f
  unfold claimDebtRatio
  by_cases h0 : total_loc = 0
  · simp [h0]
  · have hq : ((total_loc : ℚ) / 50) ≠ 0 := by
      simp [div_eq_zero_iff]
      exact_mod_cast h0
    rw [if_neg hq, if_neg h0, hsum]
    ring

end AuditorClaims

namespace AuditorClaims

open TechnicalDebt RemediationPlanner

/-- C6: calculate_sqale_rating returns one of A, B, C, D, E, determined by the
debt ratio 100 * H / (total_loc / 50) with the claimed thresholds, and returns
A when total_loc is 0 (ratio taken to be 0). -/
theorem sqale_rating_thresholds (all_findings : List Finding) (total_loc : ℕ) :
    (calculate_sqale_rating all_findings total_loc = "A" ∨
     calculate_sqale_rating all_findings total_loc = "B" ∨
     calculate_sqale_rating all_findings total_loc = "C" ∨
     calculate_sqale_rating all_findings total_loc = "D" ∨
     calculate_sqale_rating all_findings total_loc = "E") ∧
    (calculate_sqale_rating all_findings total_loc = "A" ↔
      claimDebtRatio all_findings total_loc ≤ 5) ∧
    (calculate_sqale_rating all_findings total_loc = "B" ↔
      5 < claimDebtRatio all_findings total_loc ∧ claimDebtRatio all_findings total_loc ≤ 10) ∧
    (calculate_sqale_rating all_findings total_loc = "C" ↔
      10 < claimDebtRatio all_findings total_loc ∧ claimDebtRatio all_findings total_loc ≤ 20) ∧
    (calculate_sqale_rating all_findings total_loc = "D" ↔
      20 < claimDebtRatio all_findings total_loc ∧ claimDebtRatio all_findings total_loc ≤ 50) ∧
    (calculate_sqale_rating all_findings total_loc = "E" ↔
      50 < claimDebtRatio all_findings total_loc) ∧
    (total_loc = 0 → calculate_sqale_rating all_findings total_loc = "A") := by
  unfold calculate_sqale_rating
  rw [ratio_eq_claimRatio all_findings total_loc]
  have h0 : total_loc = 0 → claimDebtRatio all_findings total_loc = 0 := by
    intro h; simp [claimDebtRatio, h]
  split_ifs with h5 h10 h20 h50
  · exact ⟨Or.inl rfl, iff_of_true rfl h5,
      iff_of_false (by decide) (fun h => absurd h5 (not_le.mpr h.1)),
      iff_of_false (by decide) (fun h => absurd h.1 (not_lt.mpr (by linarith))),
      iff_of_false (by decide) (fun h => absurd h.1 (not_lt.mpr (by linarith))),
      iff_of_false (by decide) (not_lt.mpr (by linarith)),
      fun _ => rfl⟩
  · exact ⟨Or.inr (Or.inl rfl), iff_of_false (by decide) h5,
      iff_of_true rfl ⟨not_le.mp h5, h10⟩,
      iff_of_false (by decide) (fun h => absurd h10 (not_le.mpr h.1)),
      iff_of_false (by decide) (fun h => absurd h.1 (not_lt.mpr (by linarith))),
      iff_of_false (by decide) (not_lt.mpr (by linarith)),
      fun h => absurd (h0 h) (fun he => h5 (by rw [he]; norm_num))⟩
  · exact ⟨Or.inr (Or.inr (Or.inl rfl)), iff_of_false (by decide) h5,
      iff_of_false (by decide) (fun h => absurd h.2 h10),
      iff_of_true rfl ⟨not_le.mp h10, h20⟩,
      iff_of_false (by decide) (fun h => absurd h20 (not_le.mpr h.1)),
      iff_of_false (by decide) (not_lt.mpr (by linarith)),
      fun h => absurd (h0 h) (fun he => h5 (by rw [he]; norm_num))⟩
  · exact ⟨Or.inr (Or.inr (Or.inr (Or.inl rfl))), iff_of_false (by decide) h5,
      iff_of_false (by decide) (fun h => absurd h.2 (fun hle => h10 (by linarith))),
      iff_of_false (by decide) (fun h => absurd h.2 h20),
      iff_of_true rfl ⟨not_le.mp h20, h50⟩,
      iff_of_false (by decide) (not_lt.mpr (by linarith)),
      fun h => absurd (h0 h) (fun he => h5 (by rw [he]; norm_num))⟩
  · exact ⟨Or.inr (Or.inr (Or.inr (Or.inr rfl))), iff_of_false (by decide) h5,
      iff_of_false (by decide) (fun h => absurd h.2 (fun hle => h10 (by linarith))),
      iff_of_false (by decide) (fun h => absurd h.2 (fun hle => h20 (by linarith))),
      iff_of_false (by decide) (fun h => absurd h.2 h50),
      iff_of_true rfl (not_le.mp h50),
      fun h => absurd (h0 h) (fun he => h5 (by rw [he]; norm_num))⟩

/-- C10: calculate_priority_score is always at least 9, and the max-with-0
clamp never changes the result. -/
theorem priority_score_at_least_nine (f : Finding) :
    9 ≤ calculate_priority_score f ∧
    calculate_priority_score f =
      impact_of f * 10 + frequency_of f * 5 - effort_of f * 2 := by
  have h1 : 1 ≤ impact_of f := by
    unfold impact_of severity_impact
    split_ifs <;> norm_num
  have h2 : 3 ≤ frequency_of f := by
    unfold frequency_of
    split_ifs <;> norm_num
  have h3 : effort_of f ≤ 8 := by
    unfold effort_of effort_values
    split_ifs <;> norm_num
  have h9 : 9 ≤ impact_of f * 10 + frequency_of f * 5 - effort_of f * 2 := by linarith
  refine ⟨?_, ?_⟩
  · unfold calculate_priority_score
    exact le_trans h9 (le_max_right 0 _)
  · unfold calculate_priority_score
    exact max_eq_right (by linarith)

end AuditorClaims

namespace AuditorClaims

open TechnicalDebt RemediationPlanner

theorem filterBySeverity_ok {sev : String} :
    ∀ {l r : List Finding}, filterBySeverity sev l = .ok r →
      r = l.filter (fun f => decide (f.severity = some sev)) := by
  intro l
  induction l with
  | nil =>
    intro r h
    simp only [filterBySeverity] at h
    cases h
    simp
  | cons f rest ih =>
    intro r h
    simp only [filterBySeverity, getSeverity] at h
    cases hs : f.severity with
    | none => rw [hs] at h; cases h
    | some s =>
      rw [hs] at h
      cases ht : filterBySeverity sev rest with
      | error e => rw [ht] at h; cases h
      | ok tail =>
        rw [ht] at h
        cases h
        rw [ih ht]
        by_cases hsv : s = sev
        · simp [List.filter, hs, hsv]
        · simp only [List.filter, hs]
          have : ¬ (some s = some sev) := by simpa using hsv
          simp [if_neg hsv, this]

theorem sortByPriority_pairwise (l : List Finding) :
    List.Pairwise (fun a b => calculate_priority_score b ≤ calculate_priority_score a)
      (sortByPriority l) := by
  haveI : IsTotal Finding
      (fun a b => calculate_priority_score b ≤ calculate_priority_score a) :=
    ⟨fun a b => le_total _ _⟩
  haveI : IsTrans Finding
      (fun a b => calculate_priority_score b ≤ calculate_priority_score a) :=
    ⟨fun _ _ _ hab hbc => le_trans hbc hab⟩
  exact List.sorted_insertionSort _ l

theorem sortByPriority_perm (l : List Finding) : (sortByPriority l).Perm l :=
  List.perm_insertionSort _ l

end AuditorClaims

namespace AuditorClaims

open TechnicalDebt RemediationPlanner

/-- C7: calculate_priority_score is the clamped linear formula with the claimed
impact, frequency and effort tables (for findings that carry a severity), and
generate_remediation_plan assigns findings to the P0-P3 buckets solely by
severity critical, high, medium, low, each bucket listed in non-increasing
priority-score order. -/
theorem priority_formula_and_buckets :
    (∀ (f : Finding) (s : String), f.severity = some s →
      calculate_priority_score f = max 0 (
        (if s = "critical" then 10 else if s = "high" then 7
          else if s = "medium" then 4 else if s = "low" then 2 else 1) * 10 +
        (if f.category = some "security" ∨ f.category = some "testing" then 10
          else if f.category = some "quality" ∨ f.category = some "performance" then 6
          else 3) * 5 -
        (if f.effort = some "low" then 2 else if f.effort = some "medium" then 5
          else if f.effort = some "high" then 8 else 5) * 2)) ∧
    (∀ (findings : List (String × List Finding)) (p0 p1 p2 p3 : List Finding),
      remediationBuckets findings = .ok (p0, p1, p2, p3) →
      ((∀ f : Finding, f ∈ p0 ↔ f ∈ flattenWithCategory findings ∧ f.severity = some "critical") ∧
       (∀ f : Finding, f ∈ p1 ↔ f ∈ flattenWithCategory findings ∧ f.severity = some "high") ∧
       (∀ f : Finding, f ∈ p2 ↔ f ∈ flattenWithCategory findings ∧ f.severity = some "medium") ∧
       (∀ f : Finding, f ∈ p3 ↔ f ∈ flattenWithCategory findings ∧ f.severity = some "low")) ∧
      (List.Pairwise (fun a b => calculate_priority_score b ≤ calculate_priority_score a) p0 ∧
       List.Pairwise (fun a b => calculate_priority_score b ≤ calculate_priority_score a) p1 ∧
       List.Pairwise (fun a b => calculate_priority_score b ≤ calculate_priority_score a) p2 ∧
       List.Pairwise (fun a b => calculate_priority_score b ≤ calculate_priority_score a) p3)) := by
  constructor
  · intro f s hs
    unfold calculate_priority_score
    have hi : impact_of f = (if s = "critical" then 10 else if s = "high" then 7
        else if s = "medium" then 4 else if s = "low" then 2 else 1) := by
      unfold impact_of severity_impact
      rw [hs]
      simp [Option.getD]
    have hf : frequency_of f =
        (if f.category = some "security" ∨ f.category = some "testing" then 10
          else if f.category = some "quality" ∨ f.category = some "performance" then 6
          else 3) := by
      cases hc : f.category with
      | none => simp [frequency_of, hc]
      | some t => simp [frequency_of, hc]
    have he : effort_of f =
        (if f.effort = some "low" then 2 else if f.effort = some "medium" then 5
          else if f.effort = some "high" then 8 else 5) := by
      cases hc : f.effort with
      | none => simp [effort_of, effort_values, hc]
      | some t => simp [effort_of, effort_values, hc]
    rw [hi, hf, he]
  · intro findings p0 p1 p2 p3 hok
    simp only [remediationBuckets] at hok
    rcases h0 : filterBySeverity "critical" (sortByPriority (flattenWithCategory findings))
      with e0 | q0 <;> rw [h0] at hok
    · cases hok
    rcases h1 : filterBySeverity "high" (sortByPriority (flattenWithCategory findings))
      with e1 | q1 <;> rw [h1] at hok
    · cases hok
    rcases h2 : filterBySeverity "medium" (sortByPriority (flattenWithCategory findings))
      with e2 | q2 <;> rw [h2] at hok
    · cases hok
    rcases h3 : filterBySeverity "low" (sortByPriority (flattenWithCategory findings))
      with e3 | q3 <;> rw [h3] at hok
    · cases hok
    cases hok
    have e0 := filterBySeverity_ok h0
    have e1 := filterBySeverity_ok h1
    have e2 := filterBySeverity_ok h2
    have e3 := filterBySeverity_ok h3
    subst e0 e1 e2 e3
    have hperm := sortByPriority_perm (flattenWithCategory findings)
    have hpw := sortByPriority_pairwise (flattenWithCategory findings)
    refine ⟨⟨?_, ?_, ?_, ?_⟩, ?_, ?_, ?_, ?_⟩ <;>
      first
        | (intro f
           rw [List.mem_filter, hperm.mem_iff, decide_eq_true_iff])
        | exact hpw.filter _

end AuditorClaims

namespace AuditorClaims

open TechnicalDebt RemediationPlanner

/-- Witness for C7: the priority formula and the bucket properties at a
concrete finding and a concrete findings dictionary. -/
theorem priority_formula_and_buckets_witness :
    calculate_priority_score ⟨some "high", none, none⟩ = max 0 (7 * 10 + 3 * 5 - 5 * 2) ∧
    remediationBuckets [("security", [⟨some "high", none, none⟩])] =
      .ok ([], [⟨some "high", some "security", none⟩], [], []) ∧
    List.Pairwise (fun a b => calculate_priority_score b ≤ calculate_priority_score a)
      [(⟨some "high", some "security", none⟩ : Finding)] := by
  refine ⟨?_, by decide, ?_⟩
  · exact priority_formula_and_buckets.1 ⟨some "high", none, none⟩ "high" rfl
  · exact (priority_formula_and_buckets.2 [("security", [⟨some "high", none, none⟩])]
      [] [⟨some "high", some "security", none⟩] [] [] (by decide)).2.2.1

end AuditorClaims

section Processor

/-!
## Conversation processor (conversation-processor.py)

A JSONL conversation file is a list of lines; each line is blank, a line whose
JSON parses to a message dict, or a line whose JSON decoding fails.  A parsed
message dict is reduced to the fields `_process_conversation` reads: its
`type`, its flattened text content (the str-versus-content-block distinction
of the JSON is flattened to the joined text), and the names of its `tool_use`
content blocks.  SHA-256 hashing, the regex extractors for tool names, file
paths and topics, and `datetime.now()` are abstracted as parameters of the
model (ExtractorModel); every theorem below holds for all instantiations.
-/

/-- One parsed JSONL message dict, reduced to what the processor reads. -/
structure PyMsg where
  msgType : String
  content : String
  toolBlocks : List String
  deriving DecidableEq, Repr

/-- One line of a JSONL file. -/
inductive JsonLine
  | blank
  | parsed (m : PyMsg)
  | bad
  deriving DecidableEq, Repr

/-- The observable content of one conversation file: its lines, whether its
bytes fail UTF-8 decoding (reading then raises UnicodeDecodeError), its
st_mtime rendered as an ISO string, and its byte size. -/
structure FileContent where
  lines : List JsonLine
  decodeErr : Bool
  mtime : String
  size : Nat
  deriving DecidableEq, Repr

/-- The filesystem seen by one single-threaded run: conversation files by path. -/
abbrev FileSys := String → Option FileContent

/-- The abstracted pure helpers of ConversationProcessor: the SHA-256 hex
digest (the chunked 8 KiB digest loop of `_compute_file_hash` equals the digest
of the whole byte string), the regex extractors `_extract_tool_uses`,
`_extract_file_paths` (read, written, edited) and `_extract_topics`, and the
`datetime.now().isoformat()` of the run. -/
structure ExtractorModel where
  hashFn : FileContent → String
  extract_tool_uses : String → List String
  extract_file_paths : String → List String × List String × List String
  extract_topics : List PyMsg → List String
  now : String

/-- Characters of a path after the last slash. -/
def afterLastSlash (cs : List Char) : List Char :=
  cs.foldl (fun acc c => if c = '/' then [] else acc ++ [c]) []

/-- Python `Path(p).stem`: final component without its last extension. -/
def pathStem (p : String) : String :=
  let name := afterLastSlash p.toList
  match List.span (fun c => !(c == '.')) name.reverse with
  | (_, '.' :: rest) => if rest.isEmpty then ⟨name⟩ else ⟨rest.reverse⟩
  | _ => ⟨name⟩

/-- Python `str(Path(p).parent)`. -/
def parentDir (p : String) : String :=
  match List.span (fun c => !(c == '/')) p.toList.reverse with
  | (_, '/' :: rest) => if rest.isEmpty then "/" else ⟨rest.reverse⟩
  | _ => "."

/-- A row of the `conversations` table (also the ConversationMetadata record:
`_store_conversation` maps the dataclass onto the row one field to one field,
JSON-encoding the five list fields and ISO-formatting the two datetimes). -/
structure ConvRow where
  id : String
  project_path : String
  timestamp : String
  message_count : Nat
  user_messages : Nat
  assistant_messages : Nat
  files_read : List String
  files_written : List String
  files_edited : List String
  tools_used : List String
  topics : List String
  first_user_message : String
  last_assistant_message : String
  conversation_hash : String
  file_size_bytes : Nat
  processed_at : String
  deriving DecidableEq, Repr

/-- A row of the `file_interactions` table (the AUTOINCREMENT id is dropped). -/
structure InteractionRow where
  conversation_id : String
  file_path : String
  interaction_type : String
  deriving DecidableEq, Repr

/-- A row of the `tool_usage` table (the AUTOINCREMENT id is dropped). -/
structure ToolUsageRow where
  conversation_id : String
  tool_name : String
  usage_count : Nat
  deriving DecidableEq, Repr

/-- A row of the `processing_state` table. -/
structure StateRow where
  file_path : String
  last_modified : String
  last_processed : String
  file_hash : String
  deriving DecidableEq, Repr

/-- The four tables of conversations.db created by `_init_database`. -/
structure ProcDB where
  conversations : List ConvRow
  file_interactions : List InteractionRow
  tool_usage : List ToolUsageRow
  processing_state : List StateRow
  deriving DecidableEq, Repr

/-- The freshly initialized database. -/
def emptyDB : ProcDB := ⟨[], [], [], []⟩

/-- Python `list(set(xs))`: dedup; CPython's unspecified set order is modelled
as first-occurrence order. -/
def dedupAux (seen : List String) : List String → List String
  | [] => []
  | x :: xs => if seen.contains x then dedupAux seen xs else x :: dedupAux (x :: seen) xs

/-- Python `list(set(xs))` on string lists. -/
def dedup (l : List String) : List String := dedupAux [] l

/-- Python slicing `s[:500]`. -/
def take500 (s : String) : String := ⟨s.toList.take 500⟩

namespace ConversationProcessor

/-- conversation-processor.py lines 117-123: `_compute_file_hash`; raises if the
file cannot be opened. -/
def compute_file_hash (em : ExtractorModel) (fs : FileSys) (path : String) :
    Except PyErr String :=
  match fs path with
  | none => .error .fileNotFound
  | some c => .ok (em.hashFn c)

/-- conversation-processor.py lines 125-143: `_needs_processing`.  With reindex
it returns True immediately; otherwise it stats and hashes the file (raising if
the file is gone) and compares against the stored processing_state row. -/
def needs_processing (em : ExtractorModel) (fs : FileSys) (db : ProcDB)
    (path : String) (reindex : Bool) : Except PyErr Bool :=
  if reindex then .ok true
  else
    match fs path with
    | none => .error .fileNotFound
    | some c =>
      match db.processing_state.find? (fun r => r.file_path == path) with
      | none => .ok true
      | some row => .ok (row.file_hash != em.hashFn c)

/-- conversation-processor.py lines 145-153: `_update_processing_state`
(INSERT OR REPLACE keyed on file_path). -/
def update_processing_state (em : ExtractorModel) (fs : FileSys) (db : ProcDB)
    (path : String) : Except PyErr ProcDB :=
  match fs path with
  | none => .error .fileNotFound
  | some c => .ok { db with processing_state :=
      db.processing_state.filter (fun r => !(r.file_path == path)) ++
        [⟨path, c.mtime, em.now, em.hashFn c⟩] }

/-- conversation-processor.py lines 155-166: the line loop of
`_parse_jsonl_file`: blank lines are skipped, lines whose JSON decoding fails
are logged and skipped, parsed dicts are kept in order. -/
def parse_jsonl_lines (lines : List JsonLine) : List PyMsg :=
  lines.filterMap (fun l => match l with | .parsed m => some m | _ => none)

/-- conversation-processor.py lines 155-166: `_parse_jsonl_file`; raises if the
file cannot be opened, and raises UnicodeDecodeError (not caught by the
JSONDecodeError handler) while iterating a file whose bytes are invalid UTF-8. -/
def parse_jsonl_file (fs : FileSys) (path : String) : Except PyErr (List PyMsg) :=
  match fs path with
  | none => .error .fileNotFound
  | some c =>
    if c.decodeErr then .error .unicodeDecodeError else .ok (parse_jsonl_lines c.lines)

/-- Accumulator of the message loop of `_process_conversation`. -/
structure MsgAcc where
  user_messages : Nat
  assistant_messages : Nat
  first_user_msg : String
  last_assistant_msg : String
  all_tools : List String
  files_read : List String
  files_written : List String
  files_edited : List String
  deriving DecidableEq, Repr

/-- conversation-processor.py lines 294-355: one iteration of the message loop. -/
def stepMsg (em : ExtractorModel) (acc : MsgAcc) (m : PyMsg) : MsgAcc :=
  if m.msgType == "user" then
    { acc with
      user_messages := acc.user_messages + 1,
      first_user_msg :=
        if acc.first_user_msg == "" && !(m.content == "") then take500 m.content
        else acc.first_user_msg }
  else if m.msgType == "assistant" then
    let acc1 := { acc with
      assistant_messages := acc.assistant_messages + 1,
      all_tools := acc.all_tools ++ m.toolBlocks }
    if m.content == "" then acc1
    else
      { acc1 with
        last_assistant_msg := take500 m.content,
        all_tools := acc1.all_tools ++ em.extract_tool_uses m.content,
        files_read := acc1.files_read ++ (em.extract_file_paths m.content).1,
        files_written := acc1.files_written ++ (em.extract_file_paths m.content).2.1,
        files_edited := acc1.files_edited ++ (em.extract_file_paths m.content).2.2 }
  else acc

/-- The initial accumulator. -/
def acc0 : MsgAcc := ⟨0, 0, "", "", [], [], [], []⟩

/-- conversation-processor.py lines 290-394: `_process_conversation`; raises if
`file_path.stat()` fails because the file is gone. -/
def process_conversation (em : ExtractorModel) (fs : FileSys) (path : String)
    (msgs : List PyMsg) : Except PyErr ConvRow :=
  match fs path with
  | none => .error .fileNotFound
  | some c =>
    let a := msgs.foldl (stepMsg em) acc0
    .ok { id := pathStem path,
          project_path := parentDir path,
          timestamp := c.mtime,
          message_count := msgs.length,
          user_messages := a.user_messages,
          assistant_messages := a.assistant_messages,
          files_read := dedup a.files_read,
          files_written := dedup a.files_written,
          files_edited := dedup a.files_edited,
          tools_used := dedup a.all_tools,
          topics := em.extract_topics msgs,
          first_user_message := a.first_user_msg,
          last_assistant_message := a.last_assistant_msg,
          conversation_hash := em.hashFn c,
          file_size_bytes := c.size,
          processed_at := em.now }

/-- SQLite `INSERT OR REPLACE INTO conversations`: every row conflicting on the
id PRIMARY KEY or on the UNIQUE conversation_hash column is deleted, then the
new row is inserted. -/
def insertOrReplaceConversation (tbl : List ConvRow) (r : ConvRow) : List ConvRow :=
  tbl.filter (fun x => !(x.id == r.id || x.conversation_hash == r.conversation_hash)) ++ [r]

/-- conversation-processor.py lines 396-455: `_store_conversation`: insert-or-
replace the conversation row, then delete and re-insert the file_interactions
and tool_usage rows of this conversation id. -/
def store_conversation (db : ProcDB) (meta : ConvRow) : ProcDB :=
  { db with
    conversations := insertOrReplaceConversation db.conversations meta,
    file_interactions :=
      db.file_interactions.filter (fun r => !(r.conversation_id == meta.id)) ++
        meta.files_read.map (fun f => ⟨meta.id, f, "read"⟩) ++
        meta.files_written.map (fun f => ⟨meta.id, f, "write"⟩) ++
        meta.files_edited.map (fun f => ⟨meta.id, f, "edit"⟩),
    tool_usage :=
      db.tool_usage.filter (fun r => !(r.conversation_id == meta.id)) ++
        meta.tools_used.map (fun t => ⟨meta.id, t, 1⟩) }

/-- conversation-processor.py lines 464-487: the body of the try block of
`process_file` (parse, empty check, extract, store, update state, commit;
the commit is a no-op in this sequential model). -/
def process_file_body (em : ExtractorModel) (fs : FileSys) (db : ProcDB)
    (path : String) : Except PyErr (Bool × ProcDB) :=
  match parse_jsonl_file fs path with
  | .error e => .error e
  | .ok msgs =>
    if msgs.isEmpty then .ok (false, db)
    else
      match process_conversation em fs path msgs with
      | .error e => .error e
      | .ok meta =>
        match update_processing_state em fs (store_conversation db meta) path with
        | .error e => .error e
        | .ok db2 => .ok (true, db2)

/-- conversation-processor.py lines 457-494: `process_file`: skip when
`_needs_processing` says so (exceptions raised there propagate), and catch
every exception of the try body, returning False. -/
def process_file (em : ExtractorModel) (fs : FileSys) (db : ProcDB)
    (path : String) (reindex : Bool) : Except PyErr (Bool × ProcDB) :=
  match needs_processing em fs db path reindex with
  | .error e => .error e
  | .ok np =>
    if !np then .ok (false, db)
    else
      match process_file_body em fs db path with
      | .ok r => .ok r
      | .error _ => .ok (false, db)

/-- conversation-processor.py lines 495-533: the file loop of
`process_project` over the globbed JSONL files, counting processed files. -/
def process_project (em : ExtractorModel) (fs : FileSys) (db : ProcDB)
    (paths : List String) (reindex : Bool) : Except PyErr (Nat × ProcDB) :=
  match paths with
  | [] => .ok (0, db)
  | p :: rest =>
    match process_file em fs db p reindex with
    | .error e => .error e
    | .ok (b, db1) =>
      match process_project em fs db1 rest reindex with
      | .error e => .error e
      | .ok (n, db2) => .ok ((if b then n + 1 else n), db2)

end ConversationProcessor

end Processor

namespace ProcessorClaims

open ConversationProcessor

/-- C1: with the file readable, _needs_processing returns True exactly when
reindex is set, or no processing_state row exists for the path, or the stored
hash differs from the hash of the current content; and when it returns False,
process_file returns False with the database unchanged. -/
theorem needs_processing_spec (em : ExtractorModel) (fs : FileSys) (db : ProcDB)
    (path : String) (reindex : Bool) (c : FileContent) (h : fs path = some c) :
    (needs_processing em fs db path reindex = .ok
      (reindex ||
        (match db.processing_state.find? (fun r => r.file_path == path) with
         | none => true
         | some row => row.file_hash != em.hashFn c))) ∧
    (needs_processing em fs db path reindex = .ok false →
      process_file em fs db path reindex = .ok (false, db)) := by
  constructor
  · unfold needs_processing
    cases reindex with
    | true => simp
    | false =>
      simp only [Bool.false_eq_true, if_false, h, Bool.false_or]
      cases db.processing_state.find? (fun r => r.file_path == path) <;> rfl
  · intro hnp
    unfold process_file
    rw [hnp]
    rfl

/-- Witness for C1 at a concrete state: the stored hash matches, so the file is
skipped and the database is untouched. -/
theorem needs_processing_spec_witness :
    (fun (_ : String) => some (⟨[], false, "m", 0⟩ : FileContent)) "a.jsonl" =
        some (⟨[], false, "m", 0⟩ : FileContent) ∧
    needs_processing ⟨fun _ => "H", fun _ => [], fun _ => ([], [], []), fun _ => [], "t"⟩
        (fun _ => some ⟨[], false, "m", 0⟩)
        ⟨[], [], [], [⟨"a.jsonl", "m", "t", "H"⟩]⟩ "a.jsonl" false = .ok false ∧
    process_file ⟨fun _ => "H", fun _ => [], fun _ => ([], [], []), fun _ => [], "t"⟩
        (fun _ => some ⟨[], false, "m", 0⟩)
        ⟨[], [], [], [⟨"a.jsonl", "m", "t", "H"⟩]⟩ "a.jsonl" false =
      .ok (false, ⟨[], [], [], [⟨"a.jsonl", "m", "t", "H"⟩]⟩) := by
  refine ⟨rfl, by decide, ?_⟩
  exact (needs_processing_spec ⟨fun _ => "H", fun _ => [], fun _ => ([], [], []), fun _ => [], "t"⟩
    (fun _ => some ⟨[], false, "m", 0⟩) ⟨[], [], [], [⟨"a.jsonl", "m", "t", "H"⟩]⟩
    "a.jsonl" false ⟨[], false, "m", 0⟩ rfl).2 (by decide)

end ProcessorClaims

namespace ProcessorClaims

open ConversationProcessor

theorem needs_processing_total (em : ExtractorModel) (fs : FileSys) (db : ProcDB)
    (path : String) (reindex : Bool) (h : (fs path).isSome) :
    ∃ v, needs_processing em fs db path reindex = .ok v := by
  unfold needs_processing
  cases reindex with
  | true => exact ⟨true, by simp⟩
  | false =>
    rcases Option.isSome_iff_exists.mp h with ⟨c, hc⟩
    simp only [Bool.false_eq_true, if_false, hc]
    cases db.processing_state.find? (fun r => r.file_path == path) with
    | none => exact ⟨true, rfl⟩
    | some row => exact ⟨_, rfl⟩

theorem process_file_total (em : ExtractorModel) (fs : FileSys) (db : ProcDB)
    (path : String) (reindex : Bool) (np : Bool)
    (h : needs_processing em fs db path reindex = .ok np) :
    ∃ b db2, process_file em fs db path reindex = .ok (b, db2) := by
  unfold process_file
  rw [h]
  cases np with
  | false => exact ⟨false, db, rfl⟩
  | true =>
    cases hb : process_file_body em fs db path with
    | error e => exact ⟨false, db, by simp [hb]⟩
    | ok r => exact ⟨r.1, r.2, by simp [hb]⟩

/-- C2: errors are swallowed at record and file granularity: a JSON-decode
failure on one line removes only that line from the parse; any exception of
the parse/extract/store body is caught by process_file, which returns False
with the database unchanged; process_file never raises once _needs_processing
has answered; and process_project raises nothing when every globbed file is
present on the (unchanging, single-threaded) filesystem. -/
theorem error_swallowing_spec :
    (∀ (pre post : List JsonLine),
      parse_jsonl_lines (pre ++ JsonLine.bad :: post) =
        parse_jsonl_lines pre ++ parse_jsonl_lines post) ∧
    (∀ (em : ExtractorModel) (fs : FileSys) (db : ProcDB) (path : String)
        (reindex : Bool) (e : PyErr),
      needs_processing em fs db path reindex = .ok true →
      process_file_body em fs db path = .error e →
      process_file em fs db path reindex = .ok (false, db)) ∧
    (∀ (em : ExtractorModel) (fs : FileSys) (db : ProcDB) (path : String)
        (reindex : Bool) (np : Bool),
      needs_processing em fs db path reindex = .ok np →
      ∃ b db2, process_file em fs db path reindex = .ok (b, db2)) ∧
    (∀ (em : ExtractorModel) (fs : FileSys) (db : ProcDB) (paths : List String)
        (reindex : Bool),
      (∀ p ∈ paths, (fs p).isSome) →
      ∃ n db2, process_project em fs db paths reindex = .ok (n, db2)) := by
  refine ⟨?_, ?_, ?_, ?_⟩
  · intro pre post
    simp [parse_jsonl_lines, List.filterMap_append]
  · intro em fs db path reindex e hnp hbody
    unfold process_file
    rw [hnp]
    simp [hbody]
  · intro em fs db path reindex np h
    exact process_file_total em fs db path reindex np h
  · intro em fs db paths reindex
    induction paths generalizing db with
    | nil => intro _; exact ⟨0, db, rfl⟩
    | cons p rest ih =>
      intro hall
      obtain ⟨np, hnp⟩ := needs_processing_total em fs db p reindex (hall p (by simp))
      obtain ⟨b, db1, hpf⟩ := process_file_total em fs db p reindex np hnp
      obtain ⟨n, db2, hpp⟩ := ih db1 (fun q hq => hall q (by simp [hq]))
      refine ⟨(if b then n + 1 else n), db2, ?_⟩
      unfold process_project
      rw [hpf]
      simp [hpp]

/-- Witness for C2: a file with one bad line among good ones, a file whose
bytes are invalid UTF-8 (the body raises and is caught), and a two-file scan
that completes without an exception. -/
theorem error_swallowing_spec_witness :
    parse_jsonl_lines [.parsed ⟨"user", "a", []⟩, .bad, .parsed ⟨"user", "b", []⟩] =
      parse_jsonl_lines [.parsed ⟨"user", "a", []⟩] ++
        parse_jsonl_lines [.parsed ⟨"user", "b", []⟩] ∧
    process_file ⟨fun _ => "H", fun _ => [], fun _ => ([], [], []), fun _ => [], "t"⟩
        (fun _ => some ⟨[.parsed ⟨"user", "a", []⟩], true, "m", 3⟩) emptyDB "x.jsonl" false =
      .ok (false, emptyDB) ∧
    (∃ n db2,
      process_project ⟨fun _ => "H", fun _ => [], fun _ => ([], [], []), fun _ => [], "t"⟩
        (fun _ => some ⟨[.parsed ⟨"user", "a", []⟩], true, "m", 3⟩) emptyDB
        ["x.jsonl", "y.jsonl"] false = .ok (n, db2)) := by
  refine ⟨error_swallowing_spec.1 [.parsed ⟨"user", "a", []⟩] [.parsed ⟨"user", "b", []⟩], ?_, ?_⟩
  · exact error_swallowing_spec.2.1
      ⟨fun _ => "H", fun _ => [], fun _ => ([], [], []), fun _ => [], "t"⟩
      (fun _ => some ⟨[.parsed ⟨"user", "a", []⟩], true, "m", 3⟩) emptyDB "x.jsonl" false
      .unicodeDecodeError (by decide) (by decide)
  · exact error_swallowing_spec.2.2.2
      ⟨fun _ => "H", fun _ => [], fun _ => ([], [], []), fun _ => [], "t"⟩
      (fun _ => some ⟨[.parsed ⟨"user", "a", []⟩], true, "m", 3⟩) emptyDB
      ["x.jsonl", "y.jsonl"] false (by intro p hp; rfl)

end ProcessorClaims

namespace ProcessorClaims

open ConversationProcessor

theorem insertOrReplace_pairwise (tbl : List ConvRow) (r : ConvRow)
    (h : tbl.Pairwise (fun a b => a.conversation_hash ≠ b.conversation_hash)) :
    (insertOrReplaceConversation tbl r).Pairwise
      (fun a b => a.conversation_hash ≠ b.conversation_hash) := by
  unfold insertOrReplaceConversation
  rw [List.pairwise_append]
  refine ⟨h.filter _, List.pairwise_singleton _ _, ?_⟩
  intro a ha b hb
  rw [List.mem_singleton] at hb
  subst hb
  rw [List.mem_filter] at ha
  have h2 := ha.2
  simp only [Bool.not_eq_eq_eq_not, Bool.not_true, Bool.or_eq_false_iff, beq_eq_false_iff_ne,
    ne_eq] at h2
  exact h2.2

theorem process_file_body_pairwise (em : ExtractorModel) (fs : FileSys) (db : ProcDB)
    (path : String) (b : Bool) (db2 : ProcDB)
    (h : process_file_body em fs db path = .ok (b, db2))
    (hpw : db.conversations.Pairwise (fun a b => a.conversation_hash ≠ b.conversation_hash)) :
    db2.conversations.Pairwise (fun a b => a.conversation_hash ≠ b.conversation_hash) := by
  unfold process_file_body at h
  split at h
  · cases h
  · split at h
    · cases h
      exact hpw
    · split at h
      · cases h
      · rename_i meta _
        split at h
        · cases h
        · rename_i db3 hu
          cases h
          unfold update_processing_state at hu
          split at hu
          · cases hu
          · cases hu
            exact insertOrReplace_pairwise db.conversations meta hpw

theorem process_file_pairwise (em : ExtractorModel) (fs : FileSys) (db : ProcDB)
    (path : String) (reindex : Bool) (b : Bool) (db2 : ProcDB)
    (h : process_file em fs db path reindex = .ok (b, db2))
    (hpw : db.conversations.Pairwise (fun a b => a.conversation_hash ≠ b.conversation_hash)) :
    db2.conversations.Pairwise (fun a b => a.conversation_hash ≠ b.conversation_hash) := by
  unfold process_file at h
  split at h
  · cases h
  · split at h
    · cases h
      exact hpw
    · split at h
      · rename_i r hb
        cases h
        exact process_file_body_pairwise em fs db path _ _ hb hpw
      · cases h
        exact hpw

/-- C9 (amended): in every reachable database state the conversation_hash
values of the conversations table are pairwise distinct: the UNIQUE column is
maintained because INSERT OR REPLACE deletes every row that conflicts on id or
on conversation_hash before inserting, so processing any list of files
preserves pairwise-distinct hashes (storing a duplicate silently replaces the
earlier row rather than raising). -/
theorem conversation_hash_unique (em : ExtractorModel) (fs : FileSys) (db : ProcDB)
    (paths : List String) (reindex : Bool) (n : ℕ) (db2 : ProcDB)
    (h : process_project em fs db paths reindex = .ok (n, db2))
    (hpw : db.conversations.Pairwise (fun a b => a.conversation_hash ≠ b.conversation_hash)) :
    db2.conversations.Pairwise (fun a b => a.conversation_hash ≠ b.conversation_hash) := by
  induction paths generalizing db n with
  | nil =>
    unfold process_project at h
    cases h
    exact hpw
  | cons p rest ih =>
    unfold process_project at h
    split at h
    · cases h
    · rename_i b1 db1 hf
      split at h
      · cases h
      · rename_i n1 dbn hr
        cases h
        exact ih db1 n1 (by rw [hr])
          (process_file_pairwise em fs db p reindex b1 db1 (by rw [hf]) hpw)

end ProcessorClaims

namespace ProcessorClaims

open ConversationProcessor

/-- A one-message conversation file content shared by two paths below. -/
def contentAB : FileContent := ⟨[.parsed ⟨"user", "hi", []⟩], false, "2025-01-01T00:00:00", 5⟩

/-- A concrete extractor model: every file hashes to "H", extractors empty. -/
def emC : ExtractorModel :=
  ⟨fun _ => "H", fun _ => [], fun _ => ([], [], []), fun _ => [], "2025-02-02T00:00:00"⟩

/-- A filesystem with two byte-identical conversation files. -/
def fsAB : FileSys :=
  fun p => if p == "p/a.jsonl" || p == "p/b.jsonl" then some contentAB else none

/-- C9 counterexample: two byte-identical files with different ids.  Processing
both succeeds for BOTH files (count 2, not a caught uniqueness violation with
False for the second), and the conversations table ends with only the second
row: INSERT OR REPLACE silently deleted the first. -/
theorem duplicate_hash_counterexample :
    (process_project emC fsAB emptyDB ["p/a.jsonl", "p/b.jsonl"] false).map
      (fun r => (r.1, r.2.conversations.map (fun row => row.id))) = .ok (2, ["b"]) := by
  decide

/-- The database state after the two-file run above. -/
def dbAfterAB : ProcDB :=
  match process_project emC fsAB emptyDB ["p/a.jsonl", "p/b.jsonl"] false with
  | .ok r => r.2
  | .error _ => emptyDB

/-- Witness for the amended C9 at the concrete two-file run. -/
theorem conversation_hash_unique_witness :
    process_project emC fsAB emptyDB ["p/a.jsonl", "p/b.jsonl"] false = .ok (2, dbAfterAB) ∧
    dbAfterAB.conversations.Pairwise
      (fun a b => a.conversation_hash ≠ b.conversation_hash) := by
  refine ⟨by decide, ?_⟩
  exact conversation_hash_unique emC fsAB emptyDB ["p/a.jsonl", "p/b.jsonl"] false 2 dbAfterAB
    (by decide) (by decide)

end ProcessorClaims

section Search

/-!
## Semantic search (rag_indexer.py RAGIndexer.search, search-conversations.py
ConversationSearch.semantic_search)

The embedding model and the ChromaDB nearest-neighbour search are external
libraries: the store's response to one query is modelled as a distance-ordered
list of (id, distance, document) entries, truncated to `n_results`.  Distances
are exact rationals.
-/

/-- One entry of the ChromaDB response to a query, nearest first. -/
structure VecEntry where
  id : String
  distance : ℚ
  document : String
  deriving DecidableEq, Repr

/-- One formatted result of RAGIndexer.search (the ChromaDB metadata dict is
carried as an opaque association list). -/
structure SearchResult where
  id : String
  distance : ℚ
  similarity : ℚ
  document : String
  deriving DecidableEq, Repr

namespace RAGIndexer

/-- rag_indexer.py lines 201-224: `RAGIndexer.search`: embed the query, fetch
the n_results nearest entries, and format each with similarity = 1 - distance. -/
def search (collection : List VecEntry) (n_results : ℕ) : List SearchResult :=
  (collection.take n_results).map (fun e => ⟨e.id, e.distance, 1 - e.distance, e.document⟩)

end RAGIndexer

/-- The dict returned by `_get_conversation_details` (search-conversations.py
lines 43-66): the conversations row with the JSON list columns decoded. -/
structure ConvDetails where
  id : String
  timestamp : String
  message_count : ℕ
  user_messages : ℕ
  assistant_messages : ℕ
  files_read : List String
  files_written : List String
  files_edited : List String
  tools_used : List String
  topics : List String
  first_user_message : String
  last_assistant_message : String
  deriving DecidableEq, Repr

/-- The merged dict `{**result, **details}` built by semantic_search. -/
structure Enriched where
  id : String
  timestamp : String
  message_count : ℕ
  user_messages : ℕ
  assistant_messages : ℕ
  files_read : List String
  files_written : List String
  files_edited : List String
  tools_used : List String
  topics : List String
  first_user_message : String
  last_assistant_message : String
  distance : ℚ
  similarity : ℚ
  document : String
  deriving DecidableEq, Repr

namespace ConversationSearch

/-- search-conversations.py lines 43-66: `_get_conversation_details`: the first
conversations row whose id matches (id is the PRIMARY KEY). -/
def get_conversation_details (conversations : List ConvRow) (cid : String) :
    Option ConvDetails :=
  (conversations.find? (fun r => r.id == cid)).map (fun row =>
    ⟨row.id, row.timestamp, row.message_count, row.user_messages, row.assistant_messages,
     row.files_read, row.files_written, row.files_edited, row.tools_used, row.topics,
     row.first_user_message, row.last_assistant_message⟩)

/-- The merge `{**result, **details}` (details share only the id key, which is
equal by construction; distance, similarity and document come from the result). -/
def mergeResult (r : SearchResult) (d : ConvDetails) : Enriched :=
  ⟨d.id, d.timestamp, d.message_count, d.user_messages, d.assistant_messages,
   d.files_read, d.files_written, d.files_edited, d.tools_used, d.topics,
   d.first_user_message, d.last_assistant_message, r.distance, r.similarity, r.document⟩

/-- Python truthiness of an Optional[str] argument: None and the empty string
are falsy. -/
def pyTruthy (o : Option String) : Bool :=
  match o with
  | none => false
  | some s => !(s == "")

/-- search-conversations.py lines 84-103: the enrichment loop of
semantic_search: look up details by id, apply the three post-search filters
(`continue` skips the length check), append the merged dict, and break once
`limit` results are collected. -/
def enrichLoop (db : List ConvRow) (limit : ℕ)
    (date_from date_to file_pattern : Option String) :
    List SearchResult → List Enriched → List Enriched
  | [], acc => acc
  | r :: rs, acc =>
    match get_conversation_details db r.id with
    | none =>
      if limit ≤ acc.length then acc
      else enrichLoop db limit date_from date_to file_pattern rs acc
    | some d =>
      if pyTruthy date_from && pyStrLt d.timestamp (date_from.getD "") then
        enrichLoop db limit date_from date_to file_pattern rs acc
      else if pyTruthy date_to && pyStrLt (date_to.getD "") d.timestamp then
        enrichLoop db limit date_from date_to file_pattern rs acc
      else if pyTruthy file_pattern &&
          !((d.files_read ++ d.files_written ++ d.files_edited).any
            (fun f => strIn (file_pattern.getD "") f)) then
        enrichLoop db limit date_from date_to file_pattern rs acc
      else
        if limit ≤ (acc ++ [mergeResult r d]).length then acc ++ [mergeResult r d]
        else enrichLoop db limit date_from date_to file_pattern rs (acc ++ [mergeResult r d])

/-- search-conversations.py lines 68-105: `semantic_search` (the query string
determines the collection's distance ordering, delegated to the store model). -/
def semantic_search (db : List ConvRow) (collection : List VecEntry)
    (limit : ℕ) (date_from date_to file_pattern : Option String) : List Enriched :=
  enrichLoop db limit date_from date_to file_pattern
    (RAGIndexer.search collection (limit * 2)) []

end ConversationSearch

end Search

namespace SearchClaims

open ConversationSearch

/-- What the (amended) claim asserts of one returned result: it corresponds to
a stored row with the same id and fields, it satisfies every filter that was
given as a non-empty string, and its similarity is 1 minus its distance. -/
def resultOk (db : List ConvRow) (date_from date_to file_pattern : Option String)
    (e : Enriched) : Prop :=
  (∃ row ∈ db, row.id = e.id ∧ e.timestamp = row.timestamp ∧
    e.files_read = row.files_read ∧ e.files_written = row.files_written ∧
    e.files_edited = row.files_edited) ∧
  (∀ d, date_from = some d → d ≠ "" → pyStrLe d e.timestamp = true) ∧
  (∀ d, date_to = some d → d ≠ "" → pyStrLe e.timestamp d = true) ∧
  (∀ p, file_pattern = some p → p ≠ "" →
    (e.files_read ++ e.files_written ++ e.files_edited).any (fun f => strIn p f) = true) ∧
  e.similarity = 1 - e.distance

theorem enrichLoop_length (db : List ConvRow) (limit : ℕ)
    (dF dT fP : Option String) :
    ∀ (rs : List SearchResult) (acc : List Enriched), acc.length < limit →
      (enrichLoop db limit dF dT fP rs acc).length ≤ limit := by
  intro rs
  induction rs with
  | nil =>
    intro acc hl
    unfold enrichLoop
    exact le_of_lt hl
  | cons r rs ih =>
    intro acc hl
    unfold enrichLoop
    cases get_conversation_details db r.id with
    | none =>
      by_cases h : limit ≤ acc.length
      · simp only [if_pos h]
        exact le_of_lt hl
      · simp only [if_neg h]
        exact ih acc hl
    | some d =>
      by_cases h1 : (pyTruthy dF && pyStrLt d.timestamp (dF.getD "")) = true
      · simp only [if_pos h1]
        exact ih acc hl
      · simp only [if_neg h1]
        by_cases h2 : (pyTruthy dT && pyStrLt (dT.getD "") d.timestamp) = true
        · simp only [if_pos h2]
          exact ih acc hl
        · simp only [if_neg h2]
          by_cases h3 : (pyTruthy fP &&
              !((d.files_read ++ d.files_written ++ d.files_edited).any
                (fun f => strIn (fP.getD "") f))) = true
          · simp only [if_pos h3]
            exact ih acc hl
          · simp only [if_neg h3]
            have hlen : (acc ++ [mergeResult r d]).length = acc.length + 1 := by simp
            by_cases h4 : limit ≤ (acc ++ [mergeResult r d]).length
            · simp only [if_pos h4]
              rw [hlen]
              omega
            · simp only [if_neg h4]
              exact ih _ (by omega)

theorem enrichLoop_mem (db : List ConvRow) (limit : ℕ) (dF dT fP : Option String) :
    ∀ (rs : List SearchResult) (acc : List Enriched),
      (∀ r ∈ rs, r.similarity = 1 - r.distance) →
      (∀ x ∈ acc, resultOk db dF dT fP x) →
      ∀ e ∈ enrichLoop db limit dF dT fP rs acc, resultOk db dF dT fP e := by
  intro rs
  induction rs with
  | nil =>
    intro acc _ hacc e he
    unfold enrichLoop at he
    exact hacc e he
  | cons r rs ih =>
    intro acc hrs hacc e he
    have hrs2 : ∀ x ∈ rs, x.similarity = 1 - x.distance :=
      fun x hx => hrs x (List.mem_cons_of_mem _ hx)
    unfold enrichLoop at he
    split at he
    · split at he
      · exact hacc e he
      · exact ih acc hrs2 hacc e he
    · rename_i d hd
      split at he
      · exact ih acc hrs2 hacc e he
      · rename_i h1
        split at he
        · exact ih acc hrs2 hacc e he
        · rename_i h2
          split at he
          · exact ih acc hrs2 hacc e he
          · rename_i h3
            have hnew : resultOk db dF dT fP (mergeResult r d) := by
              obtain ⟨row, hfind⟩ : ∃ row, (db.find? (fun x => x.id == r.id)) = some row := by
                unfold get_conversation_details at hd
                cases hf : db.find? (fun x => x.id == r.id) with
                | none => rw [hf] at hd; cases hd
                | some row => exact ⟨row, rfl⟩
              have hmem : row ∈ db := List.mem_of_find?_eq_some hfind
              have hdrow : d = ⟨row.id, row.timestamp, row.message_count, row.user_messages,
                  row.assistant_messages, row.files_read, row.files_written, row.files_edited,
                  row.tools_used, row.topics, row.first_user_message,
                  row.last_assistant_message⟩ := by
                unfold get_conversation_details at hd
                rw [hfind] at hd
                cases hd
                rfl
              refine ⟨⟨row, hmem, ?_, ?_, ?_, ?_, ?_⟩, ?_, ?_, ?_, ?_⟩
              · rw [hdrow]; rfl
              · rw [hdrow]; rfl
              · rw [hdrow]; rfl
              · rw [hdrow]; rfl
              · rw [hdrow]; rfl
              · intro dv hdv hne
                have htruthy : pyTruthy dF = true := by
                  rw [hdv]
                  unfold pyTruthy
                  simp [hne]
                have hlt : pyStrLt d.timestamp (dF.getD "") = false := by
                  by_contra hc
                  rw [Bool.not_eq_false] at hc
                  exact h1 (by rw [htruthy, hc]; rfl)
                rw [hdv] at hlt
                simp only [Option.getD_some] at hlt
                have hle := pyStrLe_of_not_lt hlt
                simpa [mergeResult] using hle
              · intro dv hdv hne
                have htruthy : pyTruthy dT = true := by
                  rw [hdv]
                  unfold pyTruthy
                  simp [hne]
                have hlt : pyStrLt (dT.getD "") d.timestamp = false := by
                  by_contra hc
                  rw [Bool.not_eq_false] at hc
                  exact h2 (by rw [htruthy, hc]; rfl)
                rw [hdv] at hlt
                simp only [Option.getD_some] at hlt
                have hle := pyStrLe_of_not_lt hlt
                simpa [mergeResult] using hle
              · intro p hp hne
                have htruthy : pyTruthy fP = true := by
                  rw [hp]
                  unfold pyTruthy
                  simp [hne]
                have hany : ((d.files_read ++ d.files_written ++ d.files_edited).any
                    (fun f => strIn (fP.getD "") f)) = true := by
                  by_contra hc
                  rw [Bool.not_eq_true] at hc
                  exact h3 (by rw [htruthy, hc]; rfl)
                rw [hp] at hany
                simp only [Option.getD_some] at hany
                simpa [mergeResult] using hany
              · simp [mergeResult, hrs r (List.mem_cons_self r rs)]
            split at he
            · rcases List.mem_append.mp he with hx | hx
              · exact hacc e hx
              · rw [List.mem_singleton] at hx
                rw [hx]
                exact hnew
            · refine ih _ hrs2 ?_ e he
              intro x hx
              rcases List.mem_append.mp hx with hy | hy
              · exact hacc x hy
              · rw [List.mem_singleton] at hy
                rw [hy]
                exact hnew

end SearchClaims

namespace SearchClaims

open ConversationSearch

/-- C3 (amended): semantic_search returns at most limit results; every result
corresponds to a stored conversations row with the same id, satisfies the date
bounds and the file-pattern substring filter whenever those are given as
non-empty strings (empty strings are falsy in Python and disable the filter),
and carries similarity equal to 1 minus the reported distance. -/
theorem semantic_search_spec (db : List ConvRow) (collection : List VecEntry)
    (limit : ℕ) (date_from date_to file_pattern : Option String) :
    (semantic_search db collection limit date_from date_to file_pattern).length ≤ limit ∧
    ∀ e ∈ semantic_search db collection limit date_from date_to file_pattern,
      resultOk db date_from date_to file_pattern e := by
  constructor
  · unfold semantic_search
    cases limit with
    | zero =>
      simp only [Nat.zero_mul, RAGIndexer.search, List.take_zero, List.map_nil]
      unfold enrichLoop
      simp
    | succ k =>
      exact enrichLoop_length db (k + 1) date_from date_to file_pattern _ [] (by simp)
  · intro e he
    refine enrichLoop_mem db limit date_from date_to file_pattern _ [] ?_ (by simp) e he
    intro r hr
    unfold RAGIndexer.search at hr
    rw [List.mem_map] at hr
    obtain ⟨v, _, hv⟩ := hr
    rw [← hv]

/-- A concrete conversations row used in the C3 witness and counterexample. -/
def row1 : ConvRow :=
  ⟨"c1", "p", "2025-01-01", 1, 1, 0, [], [], [], [], [], "", "", "h", 0, "t"⟩

/-- The enriched result semantic_search produces from row1 at distance 0 (the
similarity field is left as the unevaluated 1 - 0 the code computes). -/
def enr1 : Enriched :=
  ⟨"c1", "2025-01-01", 1, 1, 0, [], [], [], [], [], "", "", 0, 1 - 0, "doc"⟩

/-- Witness for C3 at a concrete store: one row, one vector hit, a non-empty
date_from filter. -/
theorem semantic_search_spec_witness :
    (semantic_search [row1] [⟨"c1", 0, "doc"⟩] 10 (some "2024") none none).length ≤ 10 ∧
    resultOk [row1] (some "2024") none none enr1 := by
  have hmem : enr1 ∈ semantic_search [row1] [⟨"c1", 0, "doc"⟩] 10 (some "2024") none none := by
    rw [show semantic_search [row1] [⟨"c1", 0, "doc"⟩] 10 (some "2024") none none = [enr1]
      from rfl]
    exact List.mem_singleton.mpr rfl
  exact ⟨(semantic_search_spec [row1] [⟨"c1", 0, "doc"⟩] 10 (some "2024") none none).1,
    (semantic_search_spec [row1] [⟨"c1", 0, "doc"⟩] 10 (some "2024") none none).2 enr1 hmem⟩

/-- C3 counterexample: with date_to given as the empty string the filter is
skipped (Python truthiness), yet the claim as stated demands timestamp <=
date_to, which fails; with file_pattern given as the empty string a result with
no file entries at all is returned, so no entry has it as a substring. -/
theorem semantic_search_counterexample :
    (semantic_search [row1] [⟨"c1", 0, "doc"⟩] 10 none (some "") none).map
      (fun e => e.timestamp) = ["2025-01-01"] ∧
    pyStrLe "2025-01-01" "" = false ∧
    (semantic_search [row1] [⟨"c1", 0, "doc"⟩] 10 none none (some "")).map
      (fun e => e.files_read ++ e.files_written ++ e.files_edited) = [[]] ∧
    ([] : List String).any (fun f => strIn "" f) = false := by
  decide

end SearchClaims

section Connections

/-!
## Database connections opened per script invocation

The sqlite connections to the conversations database opened during one
invocation of each cc-insights script, as a trace of open/close events in
program order:
* conversation-processor.py: `_init_database` (line 57) opens `self.conn`;
  `main` closes it in its finally block via `close` (lines 593-596, 630-631).
* rag_indexer.py run standalone: `__init__` (line 54) opens `self.conn`;
  `main` closes it in its finally block via `close` (lines 243-246, 306-307).
* search-conversations.py: `ConversationSearch.__init__` first constructs a
  RAGIndexer, whose `__init__` opens a connection to the same conversations
  database (rag_indexer.py line 54), and then opens its own second connection
  (search-conversations.py lines 32-35); `main`'s finally block calls
  `ConversationSearch.close` (lines 287-291), which closes the indexer's
  connection and then its own.
-/

/-- The sqlite connection objects to the conversations database. -/
inductive DbConn
  | processorConn
  | indexerConn
  | searchConn
  deriving DecidableEq, Repr

/-- An open or close event on one connection. -/
inductive ConnEvent
  | openC (c : DbConn)
  | closeC (c : DbConn)
  deriving DecidableEq, Repr

/-- Connection events of one conversation-processor invocation. -/
def processorScriptTrace : List ConnEvent :=
  [.openC .processorConn, .closeC .processorConn]

/-- Connection events of one standalone rag_indexer invocation. -/
def ragIndexerScriptTrace : List ConnEvent :=
  [.openC .indexerConn, .closeC .indexerConn]

/-- Connection events of one search-conversations invocation. -/
def searchScriptTrace : List ConnEvent :=
  [.openC .indexerConn, .openC .searchConn, .closeC .indexerConn, .closeC .searchConn]

/-- Number of open events in a trace. -/
def opensIn (t : List ConnEvent) : ℕ :=
  (t.filter (fun e => match e with | .openC _ => true | .closeC _ => false)).length

/-- Net number of connections open after a trace (opens minus closes). -/
def netOpen (t : List ConnEvent) : ℤ :=
  t.foldl (fun n e => match e with | .openC _ => n + 1 | .closeC _ => n - 1) 0

end Connections

namespace ConnectionClaims

/-- C5 counterexample: after the two constructor calls of the
search-conversations script, two connections to the conversations database are
open simultaneously, and the invocation opens two connections in total, not
one. -/
theorem two_connections_counterexample :
    netOpen (searchScriptTrace.take 2) = 2 ∧ opensIn searchScriptTrace = 2 := by
  decide

/-- C5 (amended): conversation-processor and standalone rag_indexer each open
exactly one connection to the conversations database, never more than one at a
time, and close it before exit; search-conversations opens two (the indexer's
and its own), holds at most two at a time, and closes both before exit. -/
theorem connections_per_invocation :
    (opensIn processorScriptTrace = 1 ∧ netOpen processorScriptTrace = 0 ∧
      ∀ k, netOpen (processorScriptTrace.take k) ≤ 1) ∧
    (opensIn ragIndexerScriptTrace = 1 ∧ netOpen ragIndexerScriptTrace = 0 ∧
      ∀ k, netOpen (ragIndexerScriptTrace.take k) ≤ 1) ∧
    (opensIn searchScriptTrace = 2 ∧ netOpen searchScriptTrace = 0 ∧
      (∀ k, netOpen (searchScriptTrace.take k) ≤ 2) ∧
      netOpen (searchScriptTrace.take 2) = 2) := by
  refine ⟨⟨by decide, by decide, ?_⟩, ⟨by decide, by decide, ?_⟩, by decide, by decide, ?_, by decide⟩
  · intro k
    match k with
    | 0 => decide
    | 1 => decide
    | n + 2 =>
      rw [List.take_of_length_le (by simp [processorScriptTrace])]
      decide
  · intro k
    match k with
    | 0 => decide
    | 1 => decide
    | n + 2 =>
      rw [List.take_of_length_le (by simp [ragIndexerScriptTrace])]
      decide
  · intro k
    match k with
    | 0 => decide
    | 1 => decide
    | 2 => decide
    | 3 => decide
    | n + 4 =>
      rw [List.take_of_length_le (by simp [searchScriptTrace])]
      decide

end ConnectionClaims

section Marketplace

/-!
## Marketplace validator (scripts/validate-marketplace.py)

marketplace.json is parsed JSON, modelled by JVal.  Python dynamic-typing
behaviour of the operations the validator uses (`in`, subscripting, `.get`,
iteration, string join, set membership) is modelled including the exceptions
they raise on unexpected types.  Each check threads the validator state
(errors, warnings, info) and carries the state at the moment of an uncaught
exception on the error side.
-/

/-- A parsed JSON value.  JSON numbers that appear in the checked fields are
integral in this repository; the number payload is irrelevant to every check
except type tests, so Int suffices. -/
inductive JVal
  | jnull
  | jbool (b : Bool)
  | jnum (n : ℤ)
  | jstr (s : String)
  | jarr (xs : List JVal)
  | jobj (fields : List (String × JVal))

/-- Python `str.startswith`. -/
def strStartsWith (s pre : String) : Bool := startsWithChars pre.toList s.toList

/-- Python `str.strip()` (length is all later code asks of it). -/
def pyStrip (s : String) : String :=
  ⟨((s.toList.dropWhile Char.isWhitespace).reverse.dropWhile Char.isWhitespace).reverse⟩

namespace JVal

/-- Dict lookup (objects parsed from JSON have unique keys). -/
def lookup (j : JVal) (key : String) : Option JVal :=
  match j with
  | .jobj fields => (fields.find? (fun kv => kv.1 == key)).map (fun kv => kv.2)
  | _ => none

/-- Key presence in a dict. -/
def hasKey (j : JVal) (key : String) : Bool :=
  match j with
  | .jobj fields => fields.any (fun kv => kv.1 == key)
  | _ => false

/-- `isinstance(j, dict)`. -/
def isObj : JVal → Bool
  | .jobj _ => true
  | _ => false

/-- `isinstance(j, list)`. -/
def isArr : JVal → Bool
  | .jarr _ => true
  | _ => false

/-- `isinstance(j, str)`. -/
def isStr : JVal → Bool
  | .jstr _ => true
  | _ => false

/-- `isinstance(j, bool)`. -/
def isBool : JVal → Bool
  | .jbool _ => true
  | _ => false

/-- The text a Python f-string renders for a value (content is only quoted in
messages and never inspected). -/
def text : JVal → String
  | .jstr s => s
  | .jnum n => toString n
  | .jbool b => if b then "True" else "False"
  | .jnull => "None"
  | .jarr _ => "<list>"
  | .jobj _ => "<dict>"

end JVal

/-- Python `==` between JSON scalars (True == 1 in Python; containers never
reach an equality test in the validator: set membership rejects them as
unhashable first, and the `source in [...]` list test compares a container to
strings, which is False). -/
def pyEqVal : JVal → JVal → Bool
  | .jnull, .jnull => true
  | .jbool a, .jbool b => a == b
  | .jbool a, .jnum n => n == (if a then 1 else 0)
  | .jnum n, .jbool a => n == (if a then 1 else 0)
  | .jnum a, .jnum b => a == b
  | .jstr a, .jstr b => a == b
  | _, _ => false

/-- Is the value hashable (usable in a Python set)? -/
def pyHashable : JVal → Bool
  | .jarr _ => false
  | .jobj _ => false
  | _ => true

/-- Python `key in j` for a string key: dict key test, list membership, or
substring test; TypeError on non-iterables. -/
def pyIn (key : String) (j : JVal) : Except PyErr Bool :=
  match j with
  | .jobj fields => .ok (fields.any (fun kv => kv.1 == key))
  | .jarr xs => .ok (xs.any (fun x => pyEqVal x (.jstr key)))
  | .jstr s => .ok (strIn key s)
  | _ => .error .typeError

/-- Python `j[key]` for a string key: KeyError on a dict without the key,
TypeError on anything that is not a dict. -/
def pyGetItem (j : JVal) (key : String) : Except PyErr JVal :=
  match j with
  | .jobj _ =>
    match j.lookup key with
    | some v => .ok v
    | none => .error .keyError
  | _ => .error .typeError

/-- Python `j.get(key, dflt)`: AttributeError on anything that is not a dict. -/
def pyDictGet (j : JVal) (key : String) (dflt : JVal) : Except PyErr JVal :=
  match j with
  | .jobj _ => .ok ((j.lookup key).getD dflt)
  | _ => .error .attributeError

/-- Python `for x in j`: list elements, string characters, dict keys;
TypeError on non-iterables. -/
def pyIter (j : JVal) : Except PyErr (List JVal) :=
  match j with
  | .jarr xs => .ok xs
  | .jstr s => .ok (s.toList.map (fun c => .jstr ⟨[c]⟩))
  | .jobj fields => .ok (fields.map (fun kv => .jstr kv.1))
  | _ => .error .typeError

/-- Python `', '.join(names)`: TypeError when an element is not a string. -/
def joinNames : List JVal → Except PyErr String
  | [] => .ok ""
  | [.jstr s] => .ok s
  | .jstr s :: rest =>
    match joinNames rest with
    | .ok r => .ok (s ++ ", " ++ r)
    | .error e => .error e
  | _ => .error .typeError

/-- The character class [a-zA-Z0-9.-] of the semver regex. -/
def semverClassChar (c : Char) : Bool := c.isAlpha || c.isDigit || c == '.' || c == '-'

/-- Take the longest boolean-satisfying run off the front of a char list. -/
def spanChars (p : Char → Bool) : List Char → List Char × List Char
  | [] => ([], [])
  | c :: cs =>
    if p c then
      ((spanChars p cs).1.cons c, (spanChars p cs).2)
    else ([], c :: cs)

/-- The `(\+[a-zA-Z0-9.-]+)?$` part of the semver regex. -/
def matchBuildTail (cs : List Char) : Bool :=
  match cs with
  | [] => true
  | '+' :: rest => !rest.isEmpty && rest.all semverClassChar
  | _ => false

/-- The `(-[a-zA-Z0-9.-]+)?(\+[a-zA-Z0-9.-]+)?$` part of the semver regex. -/
def matchPreTail (cs : List Char) : Bool :=
  match cs with
  | '-' :: rest =>
    !(spanChars semverClassChar rest).1.isEmpty &&
      matchBuildTail (spanChars semverClassChar rest).2
  | _ => matchBuildTail cs

/-- A literal `.` followed by whatever the continuation matches. -/
def dotThen (next : List Char → Bool) (cs : List Char) : Bool :=
  match cs with
  | '.' :: r => next r
  | _ => false

/-- The codepoint ranges of the Unicode general category Nd (decimal digit),
Unicode 15.0 as shipped with CPython 3.12: this is what `\d` matches in a
str-pattern `re` without the ASCII flag. -/
def ndRanges : List (ℕ × ℕ) :=
  [(0x30, 0x39), (0x660, 0x669), (0x6F0, 0x6F9), (0x7C0, 0x7C9), (0x966, 0x96F),
   (0x9E6, 0x9EF), (0xA66, 0xA6F), (0xAE6, 0xAEF), (0xB66, 0xB6F), (0xBE6, 0xBEF),
   (0xC66, 0xC6F), (0xCE6, 0xCEF), (0xD66, 0xD6F), (0xDE6, 0xDEF), (0xE50, 0xE59),
   (0xED0, 0xED9), (0xF20, 0xF29), (0x1040, 0x1049), (0x1090, 0x1099), (0x17E0, 0x17E9),
   (0x1810, 0x1819), (0x1946, 0x194F), (0x19D0, 0x19D9), (0x1A80, 0x1A89),
   (0x1A90, 0x1A99), (0x1B50, 0x1B59), (0x1BB0, 0x1BB9), (0x1C40, 0x1C49),
   (0x1C50, 0x1C59), (0xA620, 0xA629), (0xA8D0, 0xA8D9), (0xA900, 0xA909),
   (0xA9D0, 0xA9D9), (0xA9F0, 0xA9F9), (0xAA50, 0xAA59), (0xABF0, 0xABF9),
   (0xFF10, 0xFF19), (0x104A0, 0x104A9), (0x10D30, 0x10D39), (0x11066, 0x1106F),
   (0x110F0, 0x110F9), (0x11136, 0x1113F), (0x111D0, 0x111D9), (0x112F0, 0x112F9),
   (0x11450, 0x11459), (0x114D0, 0x114D9), (0x11650, 0x11659), (0x116C0, 0x116C9),
   (0x11730, 0x11739), (0x118E0, 0x118E9), (0x11950, 0x11959), (0x11C50, 0x11C59),
   (0x11D50, 0x11D59), (0x11DA0, 0x11DA9), (0x11F50, 0x11F59), (0x16A60, 0x16A69),
   (0x16AC0, 0x16AC9), (0x16B50, 0x16B59), (0x1D7CE, 0x1D7FF), (0x1E140, 0x1E149),
   (0x1E2F0, 0x1E2F9), (0x1E4F0, 0x1E4F9), (0x1E950, 0x1E959), (0x1FBF0, 0x1FBF9)]

/-- What CPython `\d` matches on a str pattern: any Unicode decimal digit
(category Nd), not only ASCII 0-9. -/
def isReDigit (c : Char) : Bool :=
  ndRanges.any (fun r => r.1 ≤ c.toNat && c.toNat ≤ r.2)

/-- A `\d+` run followed by whatever the continuation matches. -/
def digitThen (next : List Char → Bool) (cs : List Char) : Bool :=
  !(spanChars isReDigit cs).1.isEmpty && next (spanChars isReDigit cs).2

/-- The full semver regex body `\d+\.\d+\.\d+` followed by the tail. -/
def matchSemverChars (cs : List Char) : Bool :=
  digitThen (dotThen (digitThen (dotThen (digitThen matchPreTail)))) cs

/-- CPython `$` (without MULTILINE) also matches just before one newline at
the very end of the string; since no character class of this pattern contains
a newline, a match ending at `$` before a final newline is a match of the
body on everything except that newline. -/
def matchDollarNewline (cs : List Char) : Bool :=
  match cs.reverse with
  | '\n' :: rest => matchSemverChars rest.reverse
  | _ => false

/-- validate-marketplace.py lines 323-328: `_is_valid_semver`, i.e.
`re.match` of `^\d+\.\d+\.\d+(-[a-zA-Z0-9.-]+)?(\+[a-zA-Z0-9.-]+)?$` as a
deterministic matcher with CPython re semantics: `\d` is any Unicode decimal
digit and `$` also matches before one trailing newline.  Maximal munch is
equivalent to the regex with backtracking here: every digit run must be
followed by a non-digit delimiter, the prerelease class does not contain the
`+` that starts the build group, and the build class does not contain `+`
either, so no shorter match ever helps. -/
def is_valid_semver (version : String) : Bool :=
  matchSemverChars version.toList || matchDollarNewline version.toList

end Marketplace

section Marketplace2

/-- Split a char list at every occurrence of the separator (like Python
`str.split(sep)`: "a..b" gives ["a", "", "b"], "" gives [""]). -/
def splitOnChar (sep : Char) : List Char → List (List Char)
  | [] => [[]]
  | c :: cs =>
    if c == sep then [] :: splitOnChar sep cs
    else
      match splitOnChar sep cs with
      | [] => [[c]]
      | h :: t => (c :: h) :: t

/-- Break a char list at the first occurrence of the separator, if any. -/
def breakAtFirst (sep : Char) : List Char → List Char × Option (List Char)
  | [] => ([], none)
  | c :: cs =>
    if c == sep then ([], some cs)
    else
      ((breakAtFirst sep cs).1.cons c, (breakAtFirst sep cs).2)

/-- A character allowed in semver prerelease and build identifiers. -/
def semverIdentChar (c : Char) : Bool := c.isAlpha || c.isDigit || c == '-'

/-- A semver numeric identifier: digits only, no leading zero unless "0". -/
def numericIdent (cs : List Char) : Bool :=
  !cs.isEmpty && cs.all Char.isDigit && (cs.length == 1 || !(cs.head? == some '0'))

/-- A semver alphanumeric identifier: non-empty, allowed characters, at least
one non-digit. -/
def alphanumIdent (cs : List Char) : Bool :=
  !cs.isEmpty && cs.all semverIdentChar && cs.any (fun c => !c.isDigit)

/-- A semver prerelease identifier. -/
def prereleaseIdent (cs : List Char) : Bool := numericIdent cs || alphanumIdent cs

/-- A semver build identifier: non-empty, allowed characters. -/
def buildIdent (cs : List Char) : Bool := !cs.isEmpty && cs.all semverIdentChar

/-- The major.minor.patch core with an optional -prerelease, per semver.org. -/
def semverCorePre (cs : List Char) : Bool :=
  (match splitOnChar '.' (breakAtFirst '-' cs).1 with
   | [ma, mi, pa] => numericIdent ma && numericIdent mi && numericIdent pa
   | _ => false) &&
  (match (breakAtFirst '-' cs).2 with
   | none => true
   | some pre => (splitOnChar '.' pre).all prereleaseIdent)

/-- Modelled from the spec: the semantic versioning format, the third-party
schema the spec cites ("fully specified by existing third-party schemas
(e.g., semantic versioning)"), transcribed from semver.org 2.0.0:
major.minor.patch numeric identifiers without leading zeroes, an optional
dot-separated prerelease (numeric identifiers without leading zeroes or
alphanumeric identifiers), and an optional dot-separated build of non-empty
alphanumeric-hyphen identifiers. -/
def IsSemverOfficial (v : String) : Bool :=
  match splitOnChar '+' v.toList with
  | [corePre] => semverCorePre corePre
  | [corePre, build] => semverCorePre corePre && (splitOnChar '.' build).all buildIdent
  | _ => false

/-- The validator state: scripts/validate-marketplace.py lines 34-36. -/
structure VState where
  errors : List String
  warnings : List String
  info : List String
  deriving DecidableEq, Repr

/-- Append to the errors list. -/
def addError (m : String) (st : VState) : VState := { st with errors := st.errors ++ [m] }

/-- Append to the warnings list. -/
def addWarning (m : String) (st : VState) : VState :=
  { st with warnings := st.warnings ++ [m] }

/-- A validator step: the state after it, or the Python exception it raises
together with the state at that moment. -/
abbrev VRes (α : Type) := Except (PyErr × VState) α

/-- The directories and files consulted by `_validate_skill_files`, keyed by
the resolved skill directory path: existence, being a directory, SKILL.md
existence, SKILL.md content (None models a read that raises), plugin.json
existence. -/
structure SkillFS where
  dirExists : String → Bool
  dirIsDir : String → Bool
  mdExists : String → Bool
  readMd : String → Option String
  pluginJsonExists : String → Bool

namespace MarketplaceValidator

open JVal

/-- validate-marketplace.py lines 69-76: `_validate_marketplace_structure`. -/
def checkRequiredTop (mp : JVal) : List String → VState → VRes VState
  | [], st => .ok st
  | f :: rest, st =>
    match pyIn f mp with
    | .error e => .error (e, st)
    | .ok true => checkRequiredTop mp rest st
    | .ok false => checkRequiredTop mp rest (addError s!"Missing required field: {f}" st)

/-- validate-marketplace.py lines 69-76. -/
def validate_marketplace_structure (mp : JVal) (st : VState) : VRes VState :=
  checkRequiredTop mp ["name", "owner", "metadata", "plugins"] st

/-- validate-marketplace.py lines 78-95: `_validate_owner`. -/
def validate_owner (mp : JVal) (st : VState) : VRes VState :=
  match pyIn "owner" mp with
  | .error e => .error (e, st)
  | .ok false => .ok st
  | .ok true =>
    match pyGetItem mp "owner" with
    | .error e => .error (e, st)
    | .ok owner =>
      if !owner.isObj then .ok (addError "owner must be an object" st)
      else
        .ok (if owner.hasKey "email" then
               (if owner.hasKey "name" then st else addError "owner.name is required" st)
             else
               addWarning "owner.email is recommended (required in Anthropic schema)"
                 (if owner.hasKey "name" then st else addError "owner.name is required" st))

/-- re.match on a non-string raises TypeError. -/
def is_valid_semver_py (v : JVal) : Except PyErr Bool :=
  match v with
  | .jstr s => .ok (is_valid_semver s)
  | _ => .error .typeError

/-- validate-marketplace.py lines 97-117: `_validate_metadata`. -/
def validate_metadata (mp : JVal) (st : VState) : VRes VState :=
  match pyIn "metadata" mp with
  | .error e => .error (e, st)
  | .ok false => .ok (addWarning "metadata is recommended" st)
  | .ok true =>
    match pyGetItem mp "metadata" with
    | .error e => .error (e, st)
    | .ok metadata =>
      if !metadata.isObj then .ok (addError "metadata must be an object" st)
      else
        match metadata.lookup "version" with
        | none => .ok (addWarning "metadata.version is recommended"
            (if metadata.hasKey "description" then st
             else addWarning "metadata.description is recommended" st))
        | some version =>
          match is_valid_semver_py version with
          | .error e => .error (e,
              (if metadata.hasKey "description" then st
               else addWarning "metadata.description is recommended" st))
          | .ok true => .ok (if metadata.hasKey "description" then st
              else addWarning "metadata.description is recommended" st)
          | .ok false => .ok (addWarning "Version does not follow semantic versioning"
              (if metadata.hasKey "description" then st
               else addWarning "metadata.description is recommended" st))

end MarketplaceValidator

end Marketplace2

namespace MarketplaceValidator

open JVal

/-- validate-marketplace.py lines 141-144: the required-fields loop of
`_validate_plugin_entry` (the plugin is known to be a dict here). -/
def pluginRequiredFields (plugin : JVal) (pname : String) (st : VState) : VState :=
  ["name", "description", "source", "strict", "skills"].foldl
    (fun st f =>
      if plugin.hasKey f then st
      else addError s!"Plugin {pname}: Missing required field {f}" st) st

/-- validate-marketplace.py lines 146-151: the duplicate-name set test
(`name in plugin_names` raises TypeError on an unhashable name). -/
def pluginDupName (plugin : JVal) (pname : String) (names : List JVal) (st : VState) :
    VRes (VState × List JVal) :=
  if plugin.hasKey "name" then
    match plugin.lookup "name" with
    | none => .ok (st, names)
    | some nm =>
      if !pyHashable nm then .error (.typeError, st)
      else if names.any (fun x => pyEqVal x nm) then
        .ok (addError s!"Plugin {pname}: Duplicate plugin name" st, names ++ [nm])
      else .ok (st, names ++ [nm])
  else .ok (st, names)

/-- validate-marketplace.py lines 153-160: the source checks of
`_validate_plugin_entry`. -/
def pluginSourceCheck (plugin : JVal) (pname : String) (st : VState) : VState :=
  match plugin.lookup "source" with
  | none => st
  | some source =>
    if !source.isStr then addError s!"Plugin {pname}: source must be a string" st
    else if !strStartsWith source.text "./" then
      addWarning s!"Plugin {pname}: Source should start with ./ (Anthropic pattern)" st
    else st

/-- validate-marketplace.py lines 162-165: the strict check. -/
def pluginStrictCheck (plugin : JVal) (pname : String) (st : VState) : VState :=
  match plugin.lookup "strict" with
  | none => st
  | some v => if !v.isBool then addError s!"Plugin {pname}: strict must be a boolean" st else st

/-- validate-marketplace.py lines 167-173: the skills-array check. -/
def pluginSkillsCheck (plugin : JVal) (pname : String) (st : VState) : VState :=
  match plugin.lookup "skills" with
  | none => st
  | some (.jarr []) => addWarning s!"Plugin {pname}: Empty skills array" st
  | some (.jarr (_ :: _)) => st
  | some _ => addError s!"Plugin {pname}: skills must be an array" st

/-- validate-marketplace.py lines 135-173: `_validate_plugin_entry`
(`plugin.get` raises AttributeError when the entry is not a dict). -/
def validate_plugin_entry (plugin : JVal) (idx : ℕ) (names : List JVal) (st : VState) :
    VRes (VState × List JVal) :=
  match pyDictGet plugin "name" (.jstr s!"Plugin {idx}") with
  | .error e => .error (e, st)
  | .ok pnameV =>
    let pname := pnameV.text
    match pluginDupName plugin pname names (pluginRequiredFields plugin pname st) with
    | .error e => .error e
    | .ok (st2, names2) =>
      .ok (pluginSkillsCheck plugin pname
             (pluginStrictCheck plugin pname (pluginSourceCheck plugin pname st2)),
           names2)

/-- validate-marketplace.py lines 132-133: the entry loop of `_validate_plugins`. -/
def pluginEntriesLoop : List JVal → ℕ → List JVal → VState → VRes VState
  | [], _, _, st => .ok st
  | p :: rest, idx, names, st =>
    match validate_plugin_entry p idx names st with
    | .error e => .error e
    | .ok (st2, names2) => pluginEntriesLoop rest (idx + 1) names2 st2

/-- validate-marketplace.py lines 119-133: `_validate_plugins`. -/
def validate_plugins (mp : JVal) (st : VState) : VRes VState :=
  match pyIn "plugins" mp with
  | .error e => .error (e, st)
  | .ok false => .ok st
  | .ok true =>
    match pyGetItem mp "plugins" with
    | .error e => .error (e, st)
    | .ok plugins =>
      match plugins with
      | .jarr [] => .ok (addWarning "No plugins defined in marketplace" st)
      | .jarr xs => pluginEntriesLoop xs 0 [] st
      | _ => .ok (addError "plugins must be an array" st)

/-- validate-marketplace.py lines 202-222: the collection loop of
`_validate_source_isolation`. -/
def sourceIsolationLoop : List JVal → VState → List JVal → List JVal →
    VRes (List JVal × List JVal)
  | [], _, ws, ho => .ok (ws, ho)
  | p :: rest, st, ws, ho =>
    match pyIn "name" p with
    | .error e => .error (e, st)
    | .ok false => sourceIsolationLoop rest st ws ho
    | .ok true =>
      match pyIn "source" p with
      | .error e => .error (e, st)
      | .ok false => sourceIsolationLoop rest st ws ho
      | .ok true =>
        match pyGetItem p "name" with
        | .error e => .error (e, st)
        | .ok nm =>
          match pyGetItem p "source" with
          | .error e => .error (e, st)
          | .ok source =>
            match pyDictGet p "skills" (.jarr []) with
            | .error e => .error (e, st)
            | .ok skills =>
              if pyEqVal source (.jstr "./") || pyEqVal source (.jstr ".") ||
                  pyEqVal source (.jstr "") then
                if (match skills with | .jarr (_ :: _) => true | _ => false) then
                  sourceIsolationLoop rest st (ws ++ [nm]) ho
                else sourceIsolationLoop rest st ws (ho ++ [nm])
              else sourceIsolationLoop rest st ws ho

/-- validate-marketplace.py lines 184-240: `_validate_source_isolation`. -/
def validate_source_isolation (mp : JVal) (st : VState) : VRes VState :=
  match pyIn "plugins" mp with
  | .error e => .error (e, st)
  | .ok false => .ok st
  | .ok true =>
    match pyGetItem mp "plugins" with
    | .error e => .error (e, st)
    | .ok plugins =>
      match plugins with
      | .jarr xs =>
        match sourceIsolationLoop xs st [] [] with
        | .error e => .error e
        | .ok (ws, ho) =>
          match (if ws.isEmpty then .ok "" else joinNames ws : Except PyErr String) with
          | .error e => .error (e, st)
          | .ok wsJoined =>
            match (if ho.isEmpty then .ok "" else joinNames ho : Except PyErr String) with
            | .error e => .error (e,
                if ws.isEmpty then st
                else addError s!"Cache duplication risk: Plugin(s) [{wsJoined}] use root source" st)
            | .ok hoJoined =>
              .ok (
                (fun st1 =>
                  if ho.isEmpty then st1
                  else addWarning
                    s!"Plugin(s) [{hoJoined}] use root source. Consider using isolated paths." st1)
                (if ws.isEmpty then st
                 else addError s!"Cache duplication risk: Plugin(s) [{wsJoined}] use root source" st))
      | _ => .ok st

end MarketplaceValidator

namespace MarketplaceValidator

open JVal

/-- Python `lstrip('./')`: strip every leading '.' or '/' character. -/
def lstripDotSlash (s : String) : String :=
  ⟨s.toList.dropWhile (fun c => c == '.' || c == '/')⟩

/-- validate-marketplace.py lines 273-277: resolve a skill path against the
repository root (model keys are the resulting relative paths). -/
def resolveSkillDir (s : String) : String :=
  if strStartsWith s "./" then lstripDotSlash s else s

/-- validate-marketplace.py lines 254-263: the skill-path loop of
`_validate_skill_references`, threading the all_skill_paths set. -/
def skillPathsLoop (pname : String) : List JVal → List String → VState →
    VState × List String
  | [], seen, st => (st, seen)
  | sp :: rest, seen, st =>
    match sp with
    | .jstr s =>
      skillPathsLoop pname rest (seen ++ [s])
        ((fun st1 => if seen.contains s then
            addWarning s!"Skill {s} is referenced in multiple plugins" st1 else st1)
         (if strStartsWith s "./" then st
          else addWarning s!"Plugin {pname}: Skill path {s} should start with ./" st))
    | _ =>
      skillPathsLoop pname rest seen
        (addError s!"Plugin {pname}: Skill path must be a string" st)

/-- validate-marketplace.py lines 242-263: the plugin loop of
`_validate_skill_references`. -/
def skillRefsLoop : List JVal → List String → VState → VRes VState
  | [], _, st => .ok st
  | p :: rest, seen, st =>
    match pyIn "name" p with
    | .error e => .error (e, st)
    | .ok false => skillRefsLoop rest seen st
    | .ok true =>
      match pyIn "skills" p with
      | .error e => .error (e, st)
      | .ok false => skillRefsLoop rest seen st
      | .ok true =>
        match pyGetItem p "name" with
        | .error e => .error (e, st)
        | .ok nm =>
          match pyGetItem p "skills" with
          | .error e => .error (e, st)
          | .ok skills =>
            match skills with
            | .jarr sps =>
              match skillPathsLoop nm.text sps seen st with
              | (st2, seen2) => skillRefsLoop rest seen2 st2
            | _ => skillRefsLoop rest seen st

/-- validate-marketplace.py lines 242-263: `_validate_skill_references` (the
plugin loop iterates `self.marketplace['plugins']` without an isinstance
guard, so a non-iterable plugins value raises TypeError here). -/
def validate_skill_references (mp : JVal) (st : VState) : VRes VState :=
  match pyIn "plugins" mp with
  | .error e => .error (e, st)
  | .ok false => .ok st
  | .ok true =>
    match pyGetItem mp "plugins" with
    | .error e => .error (e, st)
    | .ok plugins =>
      match pyIter plugins with
      | .error e => .error (e, st)
      | .ok xs => skillRefsLoop xs [] st

/-- validate-marketplace.py lines 279-313: the checks on one skill directory
(read failures are caught by the try and recorded as errors; the plugin.json
warning runs unless an earlier check hit `continue`). -/
def skillFileCheck (fs : SkillFS) (pname : String) (s : String) (st : VState) : VState :=
  if !fs.dirExists (resolveSkillDir s) then
    addError s!"Plugin {pname}: Skill directory not found: {s}" st
  else if !fs.dirIsDir (resolveSkillDir s) then
    addError s!"Plugin {pname}: Skill path is not a directory: {s}" st
  else if !fs.mdExists (resolveSkillDir s) then
    addError s!"Plugin {pname}: Missing SKILL.md at {s}/SKILL.md" st
  else
    (fun st1 =>
      if fs.pluginJsonExists (resolveSkillDir s) then
        addWarning s!"Skill {s}: Contains plugin.json (not required in Anthropic schema)" st1
      else st1)
    (match fs.readMd (resolveSkillDir s) with
     | none => addError s!"Plugin {pname}: Could not read SKILL.md in {s}" st
     | some content =>
       if (pyStrip content).length == 0 then
         addError s!"Plugin {pname}: SKILL.md is empty in {s}" st
       else if content.length < 100 then
         addWarning s!"Plugin {pname}: SKILL.md seems very short in {s}" st
       else st)

/-- validate-marketplace.py lines 271-313: the skill-path loop of
`_validate_skill_files` (non-string paths are skipped). -/
def skillFilesPaths (fs : SkillFS) (pname : String) : List JVal → VState → VState
  | [], st => st
  | sp :: rest, st =>
    match sp with
    | .jstr s => skillFilesPaths fs pname rest (skillFileCheck fs pname s st)
    | _ => skillFilesPaths fs pname rest st

/-- validate-marketplace.py lines 265-313: the plugin loop of
`_validate_skill_files`. -/
def skillFilesLoop (fs : SkillFS) : List JVal → VState → VRes VState
  | [], st => .ok st
  | p :: rest, st =>
    match pyIn "name" p with
    | .error e => .error (e, st)
    | .ok false => skillFilesLoop fs rest st
    | .ok true =>
      match pyIn "skills" p with
      | .error e => .error (e, st)
      | .ok false => skillFilesLoop fs rest st
      | .ok true =>
        match pyGetItem p "name" with
        | .error e => .error (e, st)
        | .ok nm =>
          match pyGetItem p "skills" with
          | .error e => .error (e, st)
          | .ok skills =>
            match skills with
            | .jarr sps => skillFilesLoop fs rest (skillFilesPaths fs nm.text sps st)
            | _ => skillFilesLoop fs rest st

/-- validate-marketplace.py lines 265-313: `_validate_skill_files`. -/
def validate_skill_files (mp : JVal) (fs : SkillFS) (st : VState) : VRes VState :=
  match pyIn "plugins" mp with
  | .error e => .error (e, st)
  | .ok false => .ok st
  | .ok true =>
    match pyGetItem mp "plugins" with
    | .error e => .error (e, st)
    | .ok plugins =>
      match pyIter plugins with
      | .error e => .error (e, st)
      | .ok xs => skillFilesLoop fs xs st

/-- validate-marketplace.py lines 38-67: `validate`: the early returns after a
missing or unparseable marketplace.json, the seven checks in order, and the
final `len(self.errors) == 0` (`_print_results` only prints: when it is
reached with an empty errors list the marketplace is a dict whose plugins
passed the entry checks, so its reads cannot raise). -/
def validate (mpExists : Bool) (mpParse : Option JVal) (fs : SkillFS) :
    VRes (Bool × VState) :=
  if !mpExists then
    .ok (false, addError "marketplace.json not found" ⟨[], [], []⟩)
  else
    match mpParse with
    | none => .ok (false, addError "Invalid JSON in marketplace.json" ⟨[], [], []⟩)
    | some mp =>
      match validate_marketplace_structure mp ⟨[], [], []⟩ with
      | .error e => .error e
      | .ok st1 =>
        match validate_owner mp st1 with
        | .error e => .error e
        | .ok st2 =>
          match validate_metadata mp st2 with
          | .error e => .error e
          | .ok st3 =>
            match validate_plugins mp st3 with
            | .error e => .error e
            | .ok st4 =>
              match validate_source_isolation mp st4 with
              | .error e => .error e
              | .ok st5 =>
                match validate_skill_references mp st5 with
                | .error e => .error e
                | .ok st6 =>
                  match validate_skill_files mp fs st6 with
                  | .error e => .error e
                  | .ok st7 => .ok (st7.errors.isEmpty, st7)

/-- validate-marketplace.py lines 372-381: `main`, `sys.exit(0 if success
else 1)`. -/
def main_exit (mpExists : Bool) (mpParse : Option JVal) (fs : SkillFS) : VRes ℕ :=
  match validate mpExists mpParse fs with
  | .error e => .error e
  | .ok (success, _) => .ok (if success then 0 else 1)

end MarketplaceValidator

namespace MarketplaceClaims

open MarketplaceValidator

/-- A marketplace.json whose metadata.version is the number 1 and which is
otherwise fully valid. -/
def mpBadVersion : JVal :=
  .jobj [("name", .jstr "claudex"),
         ("owner", .jobj [("name", .jstr "c"), ("email", .jstr "e")]),
         ("metadata", .jobj [("description", .jstr "d"), ("version", .jnum 1)]),
         ("plugins", .jarr [])]

/-- A fully valid marketplace.json with no plugins. -/
def mpGood : JVal :=
  .jobj [("name", .jstr "claudex"),
         ("owner", .jobj [("name", .jstr "c"), ("email", .jstr "e")]),
         ("metadata", .jobj [("description", .jstr "d"), ("version", .jstr "1.0.0")]),
         ("plugins", .jarr [])]

/-- A filesystem with no skill directories at all. -/
def fsNone : SkillFS := ⟨fun _ => false, fun _ => false, fun _ => false, fun _ => none, fun _ => false⟩

/-- C4 counterexample: on a marketplace whose metadata.version is the number 1,
`re.match` raises TypeError while the errors list is still empty, so the
process aborts with a traceback (interpreter status 1) although zero errors
were accumulated: the exit code is not 0 iff the errors list is empty. -/
theorem exit_code_crash_counterexample :
    validate true (some mpBadVersion) fsNone = .error (.typeError, ⟨[], [], []⟩) := by
  decide

theorem validate_ok_shape (mpExists : Bool) (mpParse : Option JVal) (fs : SkillFS)
    (b : Bool) (st : VState) (h : validate mpExists mpParse fs = .ok (b, st)) :
    b = st.errors.isEmpty := by
  unfold validate at h
  split at h
  · cases h
    rfl
  · split at h
    · cases h
      rfl
    · rename_i mp
      split at h
      · cases h
      · split at h
        · cases h
        · split at h
          · cases h
          · split at h
            · cases h
            · split at h
              · cases h
              · split at h
                · cases h
                · split at h
                  · cases h
                  · cases h
                    rfl

/-- C4 (amended): whenever the validate-marketplace script terminates
normally, its exit code is 0 iff the validator accumulated zero entries in
its errors list after running all checks, and 1 otherwise; warnings never
affect the exit code.  (On inputs where a check raises — for example a
non-string metadata.version — the interpreter aborts with a traceback instead
of reaching sys.exit.) -/
theorem exit_code_iff_no_errors (mpExists : Bool) (mpParse : Option JVal) (fs : SkillFS)
    (b : Bool) (st : VState)
    (h : validate mpExists mpParse fs = .ok (b, st)) :
    main_exit mpExists mpParse fs = .ok (if st.errors = [] then 0 else 1) ∧
    (main_exit mpExists mpParse fs = .ok 0 ↔ st.errors = []) := by
  have hb := validate_ok_shape mpExists mpParse fs b st h
  have hmain : main_exit mpExists mpParse fs = .ok (if b then 0 else 1) := by
    unfold main_exit
    rw [h]
  cases he : st.errors with
  | nil =>
    have hbt : b = true := by rw [hb, he]; rfl
    rw [hbt] at hmain
    refine ⟨by simpa using hmain, ?_⟩
    simp [hmain]
  | cons m rest =>
    have hbf : b = false := by rw [hb, he]; rfl
    rw [hbf] at hmain
    refine ⟨by simpa using hmain, ?_⟩
    rw [hmain]
    simp

/-- Witness for the amended C4 at a concrete valid marketplace: exit code 0
with an empty errors list (and one warning, which does not matter). -/
theorem exit_code_iff_no_errors_witness :
    main_exit true (some mpGood) fsNone = .ok (if ([] : List String) = [] then 0 else 1) ∧
    (main_exit true (some mpGood) fsNone = .ok 0 ↔ ([] : List String) = []) := by
  exact exit_code_iff_no_errors true (some mpGood) fsNone true
    ⟨[], ["No plugins defined in marketplace"], []⟩ (by decide)

end MarketplaceClaims

namespace SemverClaims

/-- A non-empty run of `\d` digits (Unicode Nd, what CPython re matches). -/
def DigitRun (cs : List Char) : Prop := cs ≠ [] ∧ ∀ c ∈ cs, isReDigit c = true

/-- A non-empty run of characters of the class [a-zA-Z0-9.-]. -/
def ClassRun (cs : List Char) : Prop := cs ≠ [] ∧ ∀ c ∈ cs, semverClassChar c = true

/-- The language of `(\+[a-zA-Z0-9.-]+)?$`. -/
def BuildOptLang (cs : List Char) : Prop := cs = [] ∨ ∃ b, cs = '+' :: b ∧ ClassRun b

/-- The language of `(-[a-zA-Z0-9.-]+)?(\+[a-zA-Z0-9.-]+)?$`. -/
def TailLang (cs : List Char) : Prop :=
  BuildOptLang cs ∨ ∃ p rest, cs = '-' :: (p ++ rest) ∧ ClassRun p ∧ BuildOptLang rest

/-- The language of the pattern body
`\d+\.\d+\.\d+(-[a-zA-Z0-9.-]+)?(\+[a-zA-Z0-9.-]+)?`: three dot-separated
non-empty digit runs (Unicode digits), an optional `-` plus a non-empty class
run, an optional `+` plus a non-empty class run. -/
def RegexSemverChars (cs : List Char) : Prop :=
  ∃ d1 d2 d3 tail, cs = d1 ++ '.' :: (d2 ++ '.' :: (d3 ++ tail)) ∧
    DigitRun d1 ∧ DigitRun d2 ∧ DigitRun d3 ∧ TailLang tail

/-- The language accepted by `re.match(pattern, v)` with CPython semantics:
the pattern body, optionally followed by a single final newline, since `$`
(without MULTILINE) also matches just before a newline that ends the
string. -/
def RegexSemverLang (v : String) : Prop :=
  RegexSemverChars v.toList ∨ ∃ u, v.toList = u ++ ['\n'] ∧ RegexSemverChars u

theorem spanChars_destruct (p : Char → Bool) :
    ∀ cs : List Char,
      cs = (spanChars p cs).1 ++ (spanChars p cs).2 ∧
      (∀ c ∈ (spanChars p cs).1, p c = true) ∧
      ((spanChars p cs).2 = [] ∨ ∃ d ds, (spanChars p cs).2 = d :: ds ∧ p d = false) := by
  intro cs
  induction cs with
  | nil => simp [spanChars]
  | cons c cs ih =>
    by_cases hc : p c = true
    · simp only [spanChars, hc, if_true]
      obtain ⟨h1, h2, h3⟩ := ih
      refine ⟨?_, ?_, h3⟩
      · simpa using h1
      · intro x hx
        rcases List.mem_cons.mp hx with rfl | hx2
        · exact hc
        · exact h2 x hx2
    · rw [Bool.not_eq_true] at hc
      simp only [spanChars, hc, Bool.false_eq_true, if_false]
      exact ⟨rfl, by simp, Or.inr ⟨c, cs, rfl, hc⟩⟩

theorem spanChars_append (p : Char → Bool) :
    ∀ (xs ys : List Char), (∀ c ∈ xs, p c = true) →
      (ys = [] ∨ ∃ d ds, ys = d :: ds ∧ p d = false) →
      spanChars p (xs ++ ys) = (xs, ys) := by
  intro xs
  induction xs with
  | nil =>
    intro ys _ hys
    rcases hys with rfl | ⟨d, ds, rfl, hd⟩
    · rfl
    · simp [spanChars, hd]
  | cons x xs ih =>
    intro ys hall hys
    have hx : p x = true := hall x (by simp)
    simp only [List.cons_append, spanChars, hx, if_true, List.append_eq]
    rw [ih ys (fun c hc => hall c (by simp [hc])) hys]

theorem matchBuildTail_iff (cs : List Char) :
    matchBuildTail cs = true ↔ BuildOptLang cs := by
  match cs with
  | [] => simp [matchBuildTail, BuildOptLang]
  | c :: rest =>
    by_cases hc : c = '+'
    · subst hc
      simp only [matchBuildTail]
      unfold BuildOptLang ClassRun
      constructor
      · intro h
        rw [Bool.and_eq_true] at h
        refine Or.inr ⟨rest, rfl, ?_, List.all_eq_true.mp h.2⟩
        intro hx
        subst hx
        simp at h
      · rintro (h | ⟨b, hb, hne, hall⟩)
        · cases h
        · rw [List.cons_eq_cons] at hb
          rw [hb.2]
          rw [Bool.and_eq_true]
          refine ⟨?_, List.all_eq_true.mpr hall⟩
          rcases b with _ | ⟨d, ds⟩
          · exact absurd rfl hne
          · rfl
    · have hm : matchBuildTail (c :: rest) = false := by
        unfold matchBuildTail
        split
        · rename_i heq
          simp at heq
        · rename_i heq
          rw [List.cons_eq_cons] at heq
          exact absurd heq.1 hc
        · rfl
      rw [hm]
      unfold BuildOptLang
      simp only [Bool.false_eq_true, false_iff]
      rintro (h | ⟨b, hb, _⟩)
      · cases h
      · rw [List.cons_eq_cons] at hb
        exact absurd hb.1 hc

end SemverClaims

namespace SemverClaims

theorem matchPreTail_iff (cs : List Char) :
    matchPreTail cs = true ↔ TailLang cs := by
  match cs with
  | [] =>
    constructor
    · intro _
      exact Or.inl (Or.inl rfl)
    · intro _
      decide
  | c :: rest =>
    by_cases hc : c = '-'
    · subst hc
      simp only [matchPreTail]
      constructor
      · intro h
        rw [Bool.and_eq_true] at h
        obtain ⟨h1, h2⟩ := h
        obtain ⟨hsplit, hall, _⟩ := spanChars_destruct semverClassChar rest
        refine Or.inr ⟨(spanChars semverClassChar rest).1, (spanChars semverClassChar rest).2,
          ?_, ⟨?_, hall⟩, (matchBuildTail_iff _).mp h2⟩
        · rw [← hsplit]
        · intro hx
          rw [hx] at h1
          simp at h1
      · rintro (hb | ⟨p, r, heq, hcr, hbo⟩)
        · unfold BuildOptLang at hb
          rcases hb with h | ⟨b, hb2, _⟩
          · cases h
          · rw [List.cons_eq_cons] at hb2
            exact absurd hb2.1 (by decide)
        · rw [List.cons_eq_cons] at heq
          rw [heq.2]
          have hr : r = [] ∨ ∃ d ds, r = d :: ds ∧ semverClassChar d = false := by
            unfold BuildOptLang at hbo
            rcases hbo with rfl | ⟨b, rfl, _⟩
            · exact Or.inl rfl
            · exact Or.inr ⟨'+', b, rfl, by decide⟩
          rw [spanChars_append semverClassChar p r hcr.2 hr]
          rw [Bool.and_eq_true]
          refine ⟨?_, (matchBuildTail_iff r).mpr hbo⟩
          rcases hp : p with _ | ⟨d, ds⟩
          · exact absurd hp hcr.1
          · rfl
    · have hm : matchPreTail (c :: rest) = matchBuildTail (c :: rest) := by
        unfold matchPreTail
        split
        · rename_i heq
          rw [List.cons_eq_cons] at heq
          exact absurd heq.1 hc
        · rfl
      rw [hm, matchBuildTail_iff]
      unfold TailLang
      constructor
      · exact Or.inl
      · rintro (h | ⟨p, r, heq, _, _⟩)
        · exact h
        · rw [List.cons_eq_cons] at heq
          exact absurd heq.1 hc

theorem dotThen_iff (next : List Char → Bool) (L : List Char → Prop)
    (hiff : ∀ r, next r = true ↔ L r) (cs : List Char) :
    dotThen next cs = true ↔ ∃ r, cs = '.' :: r ∧ L r := by
  match cs with
  | [] =>
    unfold dotThen
    simp
  | c :: rest =>
    by_cases hc : c = '.'
    · subst hc
      simp only [dotThen]
      rw [hiff]
      constructor
      · intro h
        exact ⟨rest, rfl, h⟩
      · rintro ⟨r, hr, hL⟩
        rw [List.cons_eq_cons] at hr
        rw [hr.2]
        exact hL
    · have hm : dotThen next (c :: rest) = false := by
        unfold dotThen
        split
        · rename_i heq
          rw [List.cons_eq_cons] at heq
          exact absurd heq.1 hc
        · rfl
      rw [hm]
      simp only [Bool.false_eq_true, false_iff]
      rintro ⟨r, hr, _⟩
      rw [List.cons_eq_cons] at hr
      exact absurd hr.1 hc

theorem digitThen_iff (next : List Char → Bool) (L : List Char → Prop)
    (hiff : ∀ r, next r = true ↔ L r)
    (hstart : ∀ r, L r → r = [] ∨ ∃ d ds, r = d :: ds ∧ isReDigit d = false)
    (cs : List Char) :
    digitThen next cs = true ↔ ∃ d rest, cs = d ++ rest ∧ DigitRun d ∧ L rest := by
  unfold digitThen
  constructor
  · intro h
    rw [Bool.and_eq_true] at h
    obtain ⟨h1, h2⟩ := h
    obtain ⟨hsplit, hall, _⟩ := spanChars_destruct isReDigit cs
    refine ⟨(spanChars isReDigit cs).1, (spanChars isReDigit cs).2, ?_,
      ⟨?_, hall⟩, (hiff _).mp h2⟩
    · rw [← hsplit]
    · intro hx
      rw [hx] at h1
      simp at h1
  · rintro ⟨d, rest, heq, ⟨hne, hd⟩, hL⟩
    rw [heq, spanChars_append isReDigit d rest hd (hstart rest hL)]
    rw [Bool.and_eq_true]
    refine ⟨?_, (hiff rest).mpr hL⟩
    rcases hdd : d with _ | ⟨x, xs⟩
    · exact absurd hdd hne
    · rfl

theorem tailLang_start (r : List Char) (h : TailLang r) :
    r = [] ∨ ∃ d ds, r = d :: ds ∧ isReDigit d = false := by
  rcases h with hb | ⟨p, rest, rfl, _, _⟩
  · rcases hb with rfl | ⟨b, rfl, _⟩
    · exact Or.inl rfl
    · exact Or.inr ⟨'+', b, rfl, by decide⟩
  · exact Or.inr ⟨'-', p ++ rest, rfl, by decide⟩

theorem dot_start (L : List Char → Prop) (r : List Char)
    (h : ∃ x, r = '.' :: x ∧ L x) :
    r = [] ∨ ∃ d ds, r = d :: ds ∧ isReDigit d = false := by
  obtain ⟨x, rfl, _⟩ := h
  exact Or.inr ⟨'.', x, rfl, by decide⟩

/-- The body matcher decides exactly the body language. -/
theorem matchSemverChars_iff (cs : List Char) :
    matchSemverChars cs = true ↔ RegexSemverChars cs := by
  unfold matchSemverChars RegexSemverChars
  have h3 := digitThen_iff matchPreTail TailLang matchPreTail_iff tailLang_start
  have hd3 := dotThen_iff _ _ h3
  have h2 := digitThen_iff _ _ hd3 (dot_start _)
  have hd2 := dotThen_iff _ _ h2
  have h1 := digitThen_iff _ _ hd2 (dot_start _)
  rw [h1 cs]
  constructor
  · rintro ⟨d1, r1, he1, hdr1, r2, rfl, d2, r3, he2, hdr2, r4, rfl, d3, tail, he3, hdr3, ht⟩
    exact ⟨d1, d2, d3, tail, by rw [he1, he2, he3], hdr1, hdr2, hdr3, ht⟩
  · rintro ⟨d1, d2, d3, tail, heq, hdr1, hdr2, hdr3, ht⟩
    exact ⟨d1, '.' :: (d2 ++ '.' :: (d3 ++ tail)), heq, hdr1,
      d2 ++ '.' :: (d3 ++ tail), rfl, d2, '.' :: (d3 ++ tail), rfl, hdr2,
      d3 ++ tail, rfl, d3, tail, rfl, hdr3, ht⟩

/-- The trailing-newline branch accepts exactly the body followed by one
final newline. -/
theorem matchDollarNewline_iff (cs : List Char) :
    matchDollarNewline cs = true ↔ ∃ u, cs = u ++ ['\n'] ∧ RegexSemverChars u := by
  constructor
  · intro h
    unfold matchDollarNewline at h
    split at h
    · rename_i rest heq
      refine ⟨rest.reverse, ?_, (matchSemverChars_iff _).mp h⟩
      have h2 := congrArg List.reverse heq
      rw [List.reverse_reverse] at h2
      rw [h2]
      simp
    · cases h
  · rintro ⟨u, rfl, hu⟩
    unfold matchDollarNewline
    split
    · rename_i rest heq
      have h2 : '\n' :: u.reverse = '\n' :: rest := by
        rw [← heq]
        simp
      rw [← (List.cons_eq_cons.mp h2).2, List.reverse_reverse]
      exact (matchSemverChars_iff u).mpr hu
    · rename_i hne
      exact absurd (by simp : (u ++ ['\n']).reverse = '\n' :: u.reverse) (hne u.reverse)

/-- The regex matcher decides exactly the relaxed semver language with
re-match end semantics. -/
theorem is_valid_semver_iff (v : String) :
    is_valid_semver v = true ↔ RegexSemverLang v := by
  unfold is_valid_semver RegexSemverLang
  rw [Bool.or_eq_true, matchSemverChars_iff, matchDollarNewline_iff]

end SemverClaims

namespace SemverClaims

theorem hasKey_of_lookup {fields : List (String × JVal)} {k : String} {v : JVal}
    (h : JVal.lookup (.jobj fields) k = some v) :
    (fields.any (fun kv => kv.1 == k)) = true := by
  simp only [JVal.lookup] at h
  cases hf : fields.find? (fun kv => kv.1 == k) with
  | none => rw [hf] at h; cases h
  | some kv =>
    refine List.any_eq_true.mpr ⟨kv, List.mem_of_find?_eq_some hf, ?_⟩
    simpa using List.find?_some hf

/-- C8 (amended): _is_valid_semver accepts exactly the relaxed pattern
\d+.\d+.\d+ with an optional dash plus a non-empty run of [a-zA-Z0-9.-] and an
optional plus sign plus such a run, under CPython re semantics: digit runs are
Unicode decimal digits and one trailing newline is tolerated.  This
over-approximates semantic versioning: it also admits leading zeroes, empty
dot-separated prerelease identifiers, non-ASCII digits and a trailing
newline.  _validate_metadata records a warning — never an error — when a
string metadata.version fails this check. -/
theorem semver_check_spec :
    (∀ v : String, is_valid_semver v = true ↔ RegexSemverLang v) ∧
    (∀ (fields mfields : List (String × JVal)) (st : VState) (s : String),
      JVal.lookup (.jobj fields) "metadata" = some (.jobj mfields) →
      JVal.lookup (.jobj mfields) "version" = some (.jstr s) →
      is_valid_semver s = false →
      ∃ w, MarketplaceValidator.validate_metadata (.jobj fields) st =
          .ok { st with warnings := st.warnings ++ w } ∧ w ≠ []) := by
  constructor
  · exact is_valid_semver_iff
  · intro fields mfields st s hmd hv hf
    have hk := hasKey_of_lookup hmd
    have hmd2 : (List.find? (fun kv => kv.1 == "metadata") fields).map (fun kv => kv.2) =
        some (.jobj mfields) := by
      simpa [JVal.lookup] using hmd
    have hv2 : (List.find? (fun kv => kv.1 == "version") mfields).map (fun kv => kv.2) =
        some (.jstr s) := by
      simpa [JVal.lookup] using hv
    by_cases hdesc : (List.any mfields (fun kv => kv.1 == "description")) = true
    · refine ⟨["Version does not follow semantic versioning"], ?_, by simp⟩
      simp only [MarketplaceValidator.validate_metadata, pyIn, hk, pyGetItem, JVal.lookup,
        hmd2, hv2, JVal.isObj, JVal.hasKey, MarketplaceValidator.is_valid_semver_py,
        Bool.not_true, Bool.false_eq_true, if_false, hdesc, if_true, hf]
      simp [addWarning]
    · refine ⟨["metadata.description is recommended",
        "Version does not follow semantic versioning"], ?_, by simp⟩
      simp only [MarketplaceValidator.validate_metadata, pyIn, hk, pyGetItem, JVal.lookup,
        hmd2, hv2, JVal.isObj, JVal.hasKey, MarketplaceValidator.is_valid_semver_py,
        Bool.not_true, Bool.false_eq_true, if_false, hdesc, hf]
      simp [addWarning]

end SemverClaims

namespace SemverClaims

/-- C8 counterexample: the check accepts "01.2.3" (leading zero), "1.0.0-."
(empty prerelease identifiers), "1.0.0\n" (re-match `$` tolerates one
trailing newline) and "١.٢.٣" (Arabic-Indic digits match `\d`), none of
which is a valid semantic version per semver.org, so the check does not
return True iff the version is a valid semantic version. -/
theorem semver_counterexample :
    is_valid_semver "01.2.3" = true ∧ IsSemverOfficial "01.2.3" = false ∧
    is_valid_semver "1.0.0-." = true ∧ IsSemverOfficial "1.0.0-." = false ∧
    is_valid_semver "1.0.0\n" = true ∧ IsSemverOfficial "1.0.0\n" = false ∧
    is_valid_semver "١.٢.٣" = true ∧ IsSemverOfficial "١.٢.٣" = false ∧
    IsSemverOfficial "1.2.3" = true ∧ IsSemverOfficial "1.0.0-alpha.1+build.5" = true := by
  decide

/-- Witness for the amended C8: "1.0.0" is in the relaxed language, and a
metadata dict with version "abc" gets a warning and no error. -/
theorem semver_check_spec_witness :
    RegexSemverLang "1.0.0" ∧
    (∃ w, MarketplaceValidator.validate_metadata
        (.jobj [("metadata", .jobj [("description", .jstr "d"), ("version", .jstr "abc")])])
        ⟨["e0"], ["w0"], []⟩ =
      .ok { errors := ["e0"], warnings := ["w0"] ++ w, info := [] } ∧ w ≠ []) := by
  constructor
  · exact (semver_check_spec.1 "1.0.0").mp (by decide)
  · exact semver_check_spec.2
      [("metadata", .jobj [("description", .jstr "d"), ("version", .jstr "abc")])]
      [("description", .jstr "d"), ("version", .jstr "abc")]
      ⟨["e0"], ["w0"], []⟩ "abc" rfl rfl (by decide)

end SemverClaims
